import Mathlib

/-!
# seed-cli: the command dispatcher of `main.go`

A shallow embedding of `main`, `DefineFlags` and `PrintUsage` of `main.go`.
The functions of the `commands` and `util` packages are capabilities the
dispatcher calls; they are fields of `Env` and act on an abstract world `W`.
Every call the dispatcher makes is recorded, in order, in a trace.
-/

namespace Seed

/-! ## strconv: decimal text of a Go `int` -/

/-- The two's complement bounds of a Go `int` on a 64-bit platform. -/
def minInt : Int := -(2 ^ 63)

/-- The largest Go `int`. -/
def maxInt : Int := 2 ^ 63 - 1

/-- The character of the decimal digit `d`. -/
def digitChar (d : Nat) : Char := Char.ofNat (48 + d)

/-- The value of a decimal digit character, `none` for any other character
(`ch -= 48; if ch > 9` in `strconv.Atoi`). -/
def digitVal (c : Char) : Option Nat :=
  if 48 ≤ c.toNat ∧ c.toNat ≤ 57 then some (c.toNat - 48) else none

/-- Decimal digits of `n`, most significant first; `fuel` bounds the number of
digits and `n + 1` is always enough. -/
def decimalDigits : Nat → Nat → List Char
  | 0, _ => []
  | fuel + 1, n =>
    if n < 10 then [digitChar n]
    else decimalDigits fuel (n / 10) ++ [digitChar (n % 10)]

/-- The text `strconv.Itoa` gives: a minus sign for a negative number, then
the decimal digits of the magnitude. -/
def Itoa (i : Int) : String :=
  if i < 0 then String.mk ('-' :: decimalDigits (i.natAbs + 1) i.natAbs)
  else String.mk (decimalDigits (i.natAbs + 1) i.natAbs)

/-- The digit loop of `strconv.Atoi`: `n = n*10 + int(ch)`, failing on the
first character that is not a decimal digit. -/
def parseDigits : List Char → Nat → Option Nat
  | [], acc => some acc
  | c :: cs, acc =>
    match digitVal c with
    | none => none
    | some d => parseDigits cs (acc * 10 + d)

/-- The error text of a failed `strconv.Atoi`. -/
def atoiError (s reason : String) : String :=
  "strconv.Atoi: parsing " ++ s.quote ++ ": " ++ reason

/-- Checks the parsed magnitude against the range of `int`. -/
def atoiRange (s : String) (neg : Bool) (m : Option Nat) : Except String Int :=
  match m with
  | none => Except.error (atoiError s "invalid syntax")
  | some n =>
    let v : Int := if neg then -(n : Int) else (n : Int)
    if minInt ≤ v ∧ v ≤ maxInt then Except.ok v
    else Except.error (atoiError s "value out of range")

/-- The function `strconv.Atoi`: an optional sign, then at least one decimal
digit, and the value has to fit an `int`. -/
def Atoi (s : String) : Except String Int :=
  match s.data with
  | [] => Except.error (atoiError s "invalid syntax")
  | '-' :: ds =>
    if ds.isEmpty then Except.error (atoiError s "invalid syntax")
    else atoiRange s true (parseDigits ds 0)
  | '+' :: ds =>
    if ds.isEmpty then Except.error (atoiError s "invalid syntax")
    else atoiRange s false (parseDigits ds 0)
  | ds => atoiRange s false (parseDigits ds 0)

/-- The text of `fmt.Sprintf("-%d", i)`. -/
def sprintfDashD (i : Int) : String := "-" ++ Itoa i

/-! ## Values the dispatcher handles -/

/-- A Go `error`: `none` is `nil`, `some msg` is an error whose `Error()` text
is `msg`. -/
abbrev GoError := Option String

/-- Modelled from the spec: the constant `constants.TrueString` of the
`constants` package, the text against which the dispatcher compares the value
of a boolean flag; it is the text a set boolean flag prints. -/
def TrueString : String := "true"

/-- The text `Value.String()` gives for a boolean flag (`strconv.FormatBool`). -/
def FormatBool (b : Bool) : String := if b then "true" else "false"

/-- The test `Lookup(name).Value.String() == constants.TrueString` on a
boolean flag holding `b`. -/
def flagIsTrue (b : Bool) : Bool := FormatBool b == TrueString

/-- Pieces of a character list between commas; always at least one piece. -/
def splitComma : List Char → List (List Char)
  | [] => [[]]
  | c :: cs =>
    if c = ',' then [] :: splitComma cs
    else
      match splitComma cs with
      | [] => [[c]]
      | piece :: rest => (c :: piece) :: rest

/-- The call `strings.Split(s, ",")`. -/
def Split (s : String) : List String := (splitComma s.data).map String.mk

/-! ## Flag sets

Each flag set is the record of the variables its flags are bound to; the long
and the short name of a flag are bound to the same variable. The initial
values are the defaults given in the `Define…Flags` functions. -/

/-- A `*flag.FlagSet`: whether `Parse` was called on it, and the values of its
flag variables. -/
structure FlagSet (V : Type) where
  parsed : Bool
  values : V
  deriving DecidableEq, Repr

/-- Flag variables of `seed build`. -/
structure BuildFlags where
  cacheFrom : String
  directory : String
  manifest : String
  dockerfile : String
  version : String
  user : String
  password : String
  warningsAsErrors : Bool
  publish : Bool
  registry : String
  org : String
  b : Bool
  pPatch : Bool
  pMin : Bool
  pMaj : Bool
  jPatch : Bool
  jMin : Bool
  jMaj : Bool
  deriving DecidableEq, Repr

/-- Flag variables of `seed init`. -/
structure InitFlags where
  directory : String
  version : String
  deriving DecidableEq, Repr

/-- Flag variables of `seed batch`; `settings` and `mounts` hold the text
`Value.String()` gives for the `objects.ArrayFlags` value. -/
structure BatchFlags where
  directory : String
  batchFile : String
  imgNameFlag : String
  manifest : String
  settings : String
  mounts : String
  outdir : String
  rmVar : Bool
  metadataSchema : String
  deriving DecidableEq, Repr

/-- Flag variables of `seed run`; `inputs`, `json`, `settings` and `mounts`
hold the text `Value.String()` gives for the `objects.ArrayFlags` value, and
`repeatVar` is the Go `int` variable `repeat`. -/
structure RunFlags where
  imgNameFlag : String
  manifest : String
  inputs : String
  json : String
  settings : String
  mounts : String
  outdir : String
  rmVar : Bool
  quiet : Bool
  metadataSchema : String
  repeatVar : Int
  deriving DecidableEq, Repr

/-- Flag variables of `seed search`. -/
structure SearchFlags where
  registry : String
  org : String
  filter : String
  user : String
  password : String
  deriving DecidableEq, Repr

/-- Flag variables of `seed publish`. -/
structure PublishFlags where
  registry : String
  org : String
  imgNameFlag : String
  manifest : String
  d : String
  b : Bool
  pPatch : Bool
  pMin : Bool
  pMaj : Bool
  jPatch : Bool
  jMin : Bool
  jMaj : Bool
  user : String
  password : String
  deriving DecidableEq, Repr

/-- Flag variables of `seed unpublish`. -/
structure UnpublishFlags where
  imgNameFlag : String
  manifest : String
  registry : String
  org : String
  user : String
  password : String
  deriving DecidableEq, Repr

/-- Flag variables of `seed pull`. -/
structure PullFlags where
  imgNameFlag : String
  registry : String
  org : String
  user : String
  password : String
  deriving DecidableEq, Repr

/-- Flag variables of `seed validate`. -/
structure ValidateFlags where
  warningsAsErrors : Bool
  directory : String
  schema : String
  version : String
  deriving DecidableEq, Repr

/-- The package-level flag set variables of `main.go`. -/
structure FlagSets where
  batchCmd : FlagSet BatchFlags
  buildCmd : FlagSet BuildFlags
  initCmd : FlagSet InitFlags
  listCmd : FlagSet Unit
  publishCmd : FlagSet PublishFlags
  unpublishCmd : FlagSet UnpublishFlags
  pullCmd : FlagSet PullFlags
  runCmd : FlagSet RunFlags
  searchCmd : FlagSet SearchFlags
  validateCmd : FlagSet ValidateFlags
  versionCmd : FlagSet Unit
  specCmd : FlagSet Unit
  deriving DecidableEq, Repr

/-- The flag set `DefineBuildFlags` creates. -/
def DefineBuildFlags : FlagSet BuildFlags :=
  { parsed := false
    values :=
      { cacheFrom := "", directory := ".", manifest := ".", dockerfile := ".",
        version := "1.0.0", user := "", password := "", warningsAsErrors := false,
        publish := false, registry := "", org := "", b := false,
        pPatch := false, pMin := false, pMaj := false,
        jPatch := false, jMin := false, jMaj := false } }

/-- The flag set `DefineInitFlags` creates. -/
def DefineInitFlags : FlagSet InitFlags :=
  { parsed := false, values := { directory := ".", version := "1.0.0" } }

/-- The flag set `DefineBatchFlags` creates. -/
def DefineBatchFlags : FlagSet BatchFlags :=
  { parsed := false
    values :=
      { directory := ".", batchFile := "", imgNameFlag := "", manifest := ".",
        settings := "", mounts := "", outdir := "", rmVar := false,
        metadataSchema := "" } }

/-- The flag set `DefineRunFlags` creates. -/
def DefineRunFlags : FlagSet RunFlags :=
  { parsed := false
    values :=
      { imgNameFlag := "", manifest := ".", inputs := "", json := "",
        settings := "", mounts := "", outdir := "", rmVar := false,
        quiet := false, metadataSchema := "", repeatVar := 1 } }

/-- The flag set `DefineListFlags` creates. -/
def DefineListFlags : FlagSet Unit := { parsed := false, values := () }

/-- The flag set `DefineSearchFlags` creates. -/
def DefineSearchFlags : FlagSet SearchFlags :=
  { parsed := false
    values := { registry := "", org := "", filter := "", user := "", password := "" } }

/-- The flag set `DefinePublishFlags` creates. -/
def DefinePublishFlags : FlagSet PublishFlags :=
  { parsed := false
    values :=
      { registry := "", org := "", imgNameFlag := "", manifest := ".", d := ".",
        b := false, pPatch := false, pMin := false, pMaj := false,
        jPatch := false, jMin := false, jMaj := false, user := "", password := "" } }

/-- The flag set `DefineUnpublishFlags` creates. -/
def DefineUnpublishFlags : FlagSet UnpublishFlags :=
  { parsed := false
    values :=
      { imgNameFlag := "", manifest := ".", registry := "", org := "", user := "",
        password := "" } }

/-- The flag set `DefinePullFlags` creates. -/
def DefinePullFlags : FlagSet PullFlags :=
  { parsed := false
    values := { imgNameFlag := "", registry := "", org := "", user := "", password := "" } }

/-- The flag set `DefineValidateFlags` creates. -/
def DefineValidateFlags : FlagSet ValidateFlags :=
  { parsed := false
    values := { warningsAsErrors := false, directory := ".", schema := "", version := "1.0.0" } }

/-- The flag sets as the first lines of `DefineFlags` leave them: all defined,
none parsed. -/
def definedFlagSets : FlagSets :=
  { batchCmd := DefineBatchFlags
    buildCmd := DefineBuildFlags
    initCmd := DefineInitFlags
    listCmd := DefineListFlags
    publishCmd := DefinePublishFlags
    unpublishCmd := DefineUnpublishFlags
    pullCmd := DefinePullFlags
    runCmd := DefineRunFlags
    searchCmd := DefineSearchFlags
    validateCmd := DefineValidateFlags
    versionCmd := { parsed := false, values := () }
    specCmd := { parsed := false, values := () } }

/-! ## Capabilities and the trace of calls -/

/-- Arguments of `commands.Validate`, in call order. -/
structure ValidateArgs where
  warningFlag : Bool
  schemaFile : String
  dir : String
  version : String
  deriving DecidableEq, Repr

/-- Arguments of `commands.DockerSearch`, in call order. -/
structure SearchArgs where
  url : String
  org : String
  filter : String
  username : String
  password : String
  deriving DecidableEq, Repr

/-- Arguments of `commands.DockerUnpublish`, in call order. -/
structure UnpublishArgs where
  image : String
  manifest : String
  registry : String
  org : String
  user : String
  pass : String
  deriving DecidableEq, Repr

/-- Arguments of `commands.DockerBuild`, in call order. -/
structure BuildArgs where
  jobDirectory : String
  version : String
  user : String
  pass : String
  manifest : String
  dockerfile : String
  cacheFrom : String
  warningFlag : Bool
  deriving DecidableEq, Repr

/-- Arguments of `commands.DockerPublish`, in call order. -/
structure PublishArgs where
  origImg : String
  manifest : String
  registry : String
  org : String
  user : String
  pass : String
  jobDirectory : String
  force : Bool
  P : Bool
  pm : Bool
  pp : Bool
  J : Bool
  jm : Bool
  jp : Bool
  deriving DecidableEq, Repr

/-- Arguments of `commands.BatchRun`, in call order. -/
structure BatchArgs where
  batchDir : String
  batchFile : String
  imageName : String
  manifest : String
  outputDir : String
  metadataSchema : String
  settings : List String
  mounts : List String
  rmFlag : Bool
  deriving DecidableEq, Repr

/-- Arguments of `commands.DockerRun`, in call order. -/
structure RunArgs where
  imageName : String
  manifest : String
  outputDir : String
  metadataSchema : String
  inputs : List String
  json : List String
  settings : List String
  mounts : List String
  rmFlag : Bool
  quiet : Bool
  deriving DecidableEq, Repr

/-- Arguments of `commands.DockerPull`, in call order. -/
structure PullArgs where
  imageName : String
  registry : String
  org : String
  user : String
  pass : String
  deriving DecidableEq, Repr

/-- The subcommands that own a flag set. -/
inductive CmdId where
  | batch | build | init | run | search | list | publish | unpublish | pull | validate
  | version | spec
  deriving DecidableEq, Repr

/-- One observable step of the program: a call into `commands`, `util`,
`assets` or `flag`, or a text handed to `util.PrintUtil`. -/
inductive Call where
  | PrintUtil (text : String)
  | PrintASCIIArt
  | SeedInit (dir version : String)
  | Validate (a : ValidateArgs)
  | DockerSearch (a : SearchArgs)
  | DockerUnpublish (a : UnpublishArgs)
  | CheckSudo
  | DockerList
  | DockerBuild (a : BuildArgs)
  | DockerPublish (a : PublishArgs)
  | BatchRun (a : BatchArgs)
  | DockerRun (a : RunArgs)
  | DockerPull (a : PullArgs)
  | GetSeedFileName (dir : String)
  | Parse (cmd : CmdId) (arguments : List String)
  | PrintCmdUsage (cmd : CmdId)
  | AssetDir (name : String)
  | ManSeedSpec
  deriving DecidableEq, Repr

/-- The capabilities the dispatcher calls, over a world `W` that they read
and change. Each is modelled as a call that returns; the results are the Go
results in order, with the ones the dispatcher discards left out.
`PrintCmdUsage` stands for the functions `commands.Print…Usage`, which may end
the process themselves: `some code` is `panic(util.Exit{code})`. -/
structure Env (W : Type) where
  SeedInit : String → String → W → GoError × W
  Validate : ValidateArgs → W → GoError × W
  DockerSearch : SearchArgs → W → (List String × GoError) × W
  DockerUnpublish : UnpublishArgs → W → GoError × W
  CheckSudo : W → Unit × W
  DockerList : W → GoError × W
  DockerBuild : BuildArgs → W → (String × GoError) × W
  DockerPublish : PublishArgs → W → GoError × W
  BatchRun : BatchArgs → W → GoError × W
  DockerRun : RunArgs → W → GoError × W
  DockerPull : PullArgs → W → GoError × W
  GetSeedFileName : String → W → (Bool × GoError) × W
  PrintCmdUsage : CmdId → W → Option Int × W
  AssetDir : String → W → (List String × GoError) × W
  ManSeedSpec : W → String × W
  cliVersion : String

/-- The world together with the calls made so far, oldest first. -/
structure State (W : Type) where
  world : W
  trace : List Call

/-- Records a step that does not touch the world. -/
def State.log {W : Type} (s : State W) (c : Call) : State W :=
  { s with trace := s.trace ++ [c] }

/-- Performs a capability call: records it and threads the world through. -/
def State.call {W α : Type} (s : State W) (c : Call) (f : W → α × W) : α × State W :=
  ((f s.world).1, { world := (f s.world).2, trace := s.trace ++ [c] })

/-- The process has ended with `code` (`panic(util.Exit{code})` caught by
`util.HandleExit`, or a normal return of `main`, which is code 0). -/
structure Exit (W : Type) where
  code : Int
  state : State W

/-- The call `util.PrintUtil` on the finished text. -/
def PrintUtil {W : Type} (text : String) (s : State W) : State W :=
  s.log (Call.PrintUtil text)

/-- The shared tail of every command block: on an error print it and leave
with code 1, otherwise leave with code 0. -/
def finish {W : Type} (err : GoError) (s : State W) : Exit W :=
  match err with
  | some e => { code := 1, state := PrintUtil (e ++ "\n") s }
  | none => { code := 0, state := s }

/-- How often `commands.DockerRun` occurs in a trace. -/
def countDockerRun (t : List Call) : Nat :=
  (t.filter (fun c => match c with | Call.DockerRun _ => true | _ => false)).length

/-- The arguments of the `commands.DockerRun` calls of a trace, in order. -/
def dockerRunCalls : List Call → List RunArgs
  | [] => []
  | Call.DockerRun a :: t => a :: dockerRunCalls t
  | _ :: t => dockerRunCalls t

/-- The arguments of the `commands.DockerPublish` calls of a trace, in order. -/
def dockerPublishCalls : List Call → List PublishArgs
  | [] => []
  | Call.DockerPublish a :: t => a :: dockerPublishCalls t
  | _ :: t => dockerPublishCalls t

/-! ## The command blocks of `main` -/

/-- The function `PrintASCIIArt`: the word mark is compiled into the binary
and written to standard output. -/
def PrintASCIIArt {W : Type} (s : State W) : State W := s.log Call.PrintASCIIArt

/-- The block `seed init` of `main`. -/
def mainInit {W : Type} (env : Env W) (fs : FlagSets) (s : State W) : Exit W :=
  let dir := fs.initCmd.values.directory
  let version := fs.initCmd.values.version
  let r := s.call (Call.SeedInit dir version) (env.SeedInit dir version)
  finish r.1 r.2

/-- The arguments the block `seed validate` passes to `commands.Validate`. -/
def validateArgs (fs : FlagSets) : ValidateArgs :=
  { warningFlag := flagIsTrue fs.validateCmd.values.warningsAsErrors
    schemaFile := fs.validateCmd.values.schema
    dir := fs.validateCmd.values.directory
    version := fs.validateCmd.values.version }

/-- The block `seed validate` of `main`. -/
def mainValidate {W : Type} (env : Env W) (fs : FlagSets) (s : State W) : Exit W :=
  let r := s.call (Call.Validate (validateArgs fs)) (env.Validate (validateArgs fs))
  finish r.1 r.2

/-- The arguments the block `seed search` passes to `commands.DockerSearch`. -/
def searchArgs (fs : FlagSets) : SearchArgs :=
  { url := fs.searchCmd.values.registry
    org := fs.searchCmd.values.org
    filter := fs.searchCmd.values.filter
    username := fs.searchCmd.values.user
    password := fs.searchCmd.values.password }

/-- The block `seed search` of `main`. -/
def mainSearch {W : Type} (env : Env W) (fs : FlagSets) (s : State W) : Exit W :=
  let r := s.call (Call.DockerSearch (searchArgs fs)) (env.DockerSearch (searchArgs fs))
  match r.1.2 with
  | some e => { code := 1, state := PrintUtil (e ++ "\n") r.2 }
  | none =>
    let results := r.1.1
    if results.length > 0 then
      let s1 := PrintUtil ("Found " ++ Itoa results.length ++ " Repositories:\n") r.2
      { code := 0, state := results.foldl (fun st x => PrintUtil (x ++ "\n") st) s1 }
    else
      { code := 0, state := PrintUtil "No repositories found.\n" r.2 }

/-- The arguments the block `seed unpublish` passes to
`commands.DockerUnpublish`. -/
def unpublishArgs (fs : FlagSets) : UnpublishArgs :=
  { image := fs.unpublishCmd.values.imgNameFlag
    manifest := fs.unpublishCmd.values.manifest
    registry := fs.unpublishCmd.values.registry
    org := fs.unpublishCmd.values.org
    user := fs.unpublishCmd.values.user
    pass := fs.unpublishCmd.values.password }

/-- The block `seed unpublish` of `main`. -/
def mainUnpublish {W : Type} (env : Env W) (fs : FlagSets) (s : State W) : Exit W :=
  let r := s.call (Call.DockerUnpublish (unpublishArgs fs)) (env.DockerUnpublish (unpublishArgs fs))
  finish r.1 r.2

/-- The privilege check between the unpublish and the list blocks:
`util.CheckSudo()` is called when `runtime.GOOS == "windows"`. -/
def checkPrivileges {W : Type} (env : Env W) (goos : String) (s : State W) : State W :=
  if goos = "windows" then (s.call Call.CheckSudo env.CheckSudo).2 else s

/-- The block `seed list` of `main`. -/
def mainList {W : Type} (env : Env W) (s : State W) : Exit W :=
  let r := s.call Call.DockerList env.DockerList
  finish r.1 r.2

/-- The arguments the block `seed build` passes to `commands.DockerBuild`. -/
def buildArgs (fs : FlagSets) : BuildArgs :=
  { jobDirectory := fs.buildCmd.values.directory
    version := fs.buildCmd.values.version
    user := fs.buildCmd.values.user
    pass := fs.buildCmd.values.password
    manifest := fs.buildCmd.values.manifest
    dockerfile := fs.buildCmd.values.dockerfile
    cacheFrom := fs.buildCmd.values.cacheFrom
    warningFlag := flagIsTrue fs.buildCmd.values.warningsAsErrors }

/-- The arguments the block `seed build` passes to `commands.DockerPublish`
for the image `imgName` that the build returned. -/
def buildPublishArgs (fs : FlagSets) (imgName : String) : PublishArgs :=
  { origImg := imgName
    manifest := fs.buildCmd.values.manifest
    registry := fs.buildCmd.values.registry
    org := fs.buildCmd.values.org
    user := fs.buildCmd.values.user
    pass := fs.buildCmd.values.password
    jobDirectory := fs.buildCmd.values.directory
    force := flagIsTrue fs.buildCmd.values.b
    P := flagIsTrue fs.buildCmd.values.pMaj
    pm := flagIsTrue fs.buildCmd.values.pMin
    pp := flagIsTrue fs.buildCmd.values.pPatch
    J := flagIsTrue fs.buildCmd.values.jMaj
    jm := flagIsTrue fs.buildCmd.values.jMin
    jp := flagIsTrue fs.buildCmd.values.jPatch }

/-- The block `seed build` of `main`. -/
def mainBuild {W : Type} (env : Env W) (fs : FlagSets) (s : State W) : Exit W :=
  let r := s.call (Call.DockerBuild (buildArgs fs)) (env.DockerBuild (buildArgs fs))
  let imgName := r.1.1
  match r.1.2 with
  | some e => { code := 1, state := PrintUtil (e ++ "\n") r.2 }
  | none =>
    if flagIsTrue fs.buildCmd.values.publish then
      let r2 := r.2.call (Call.DockerPublish (buildPublishArgs fs imgName))
        (env.DockerPublish (buildPublishArgs fs imgName))
      match r2.1 with
      | some e => { code := 1, state := PrintUtil (e ++ "\n") r2.2 }
      | none => { code := 0, state := r2.2 }
    else
      { code := 0, state := r.2 }

/-- The arguments the block `seed batch` passes to `commands.BatchRun`. -/
def batchArgs (fs : FlagSets) : BatchArgs :=
  { batchDir := fs.batchCmd.values.directory
    batchFile := fs.batchCmd.values.batchFile
    imageName := fs.batchCmd.values.imgNameFlag
    manifest := fs.batchCmd.values.manifest
    outputDir := fs.batchCmd.values.outdir
    metadataSchema := fs.batchCmd.values.metadataSchema
    settings := Split fs.batchCmd.values.settings
    mounts := Split fs.batchCmd.values.mounts
    rmFlag := flagIsTrue fs.batchCmd.values.rmVar }

/-- The block `seed batch` of `main`. -/
def mainBatch {W : Type} (env : Env W) (fs : FlagSets) (s : State W) : Exit W :=
  let r := s.call (Call.BatchRun (batchArgs fs)) (env.BatchRun (batchArgs fs))
  finish r.1 r.2

/-- The arguments the block `seed run` passes to `commands.DockerRun` when the
output directory of the call is `outputDir`. -/
def runArgs (fs : FlagSets) (outputDir : String) : RunArgs :=
  { imageName := fs.runCmd.values.imgNameFlag
    manifest := fs.runCmd.values.manifest
    outputDir := outputDir
    metadataSchema := fs.runCmd.values.metadataSchema
    inputs := Split fs.runCmd.values.inputs
    json := Split fs.runCmd.values.json
    settings := Split fs.runCmd.values.settings
    mounts := Split fs.runCmd.values.mounts
    rmFlag := flagIsTrue fs.runCmd.values.rmVar
    quiet := flagIsTrue fs.runCmd.values.quiet }

/-- The output directory of repetition `i`: `outputDir` itself when it is
empty, and `outputDir + fmt.Sprintf("-%d", i)` otherwise. -/
def outputDirRep (outputDir : String) (i : Int) : String :=
  if outputDir ≠ "" then outputDir ++ sprintfDashD i else outputDir

/-- The loop `for i := 0; i < reps; i++` of the run block, entered at index `i`
with `remaining = reps - i` iterations left: an error of `commands.DockerRun`
ends the process with code 1, and after the last iteration the block leaves
with code 0. -/
def runRepetitions {W : Type} (env : Env W) (fs : FlagSets) :
    Nat → Int → State W → Exit W
  | 0, _, s => { code := 0, state := s }
  | remaining + 1, i, s =>
    let a := runArgs fs (outputDirRep fs.runCmd.values.outdir i)
    let r := s.call (Call.DockerRun a) (env.DockerRun a)
    match r.1 with
    | some e => { code := 1, state := PrintUtil (e ++ "\n") r.2 }
    | none => runRepetitions env fs remaining (i + 1) r.2

/-- The block `seed run` of `main`. The repeat count is read back from the
text of the flag with `strconv.Atoi`. -/
def mainRun {W : Type} (env : Env W) (fs : FlagSets) (s : State W) : Exit W :=
  let outputDir := fs.runCmd.values.outdir
  let repeatText := Itoa fs.runCmd.values.repeatVar
  match Atoi repeatText with
  | Except.error e =>
    { code := 1, state := PrintUtil ("Error reading repeat flag: " ++ e ++ "\n") s }
  | Except.ok reps =>
    if reps > 1 then
      runRepetitions env fs reps.toNat 0 s
    else
      let r := s.call (Call.DockerRun (runArgs fs outputDir)) (env.DockerRun (runArgs fs outputDir))
      finish r.1 r.2

/-- The arguments the block `seed publish` passes to `commands.DockerPublish`. -/
def publishArgs (fs : FlagSets) : PublishArgs :=
  { origImg := fs.publishCmd.values.imgNameFlag
    manifest := fs.publishCmd.values.manifest
    registry := fs.publishCmd.values.registry
    org := fs.publishCmd.values.org
    user := fs.publishCmd.values.user
    pass := fs.publishCmd.values.password
    jobDirectory := fs.publishCmd.values.d
    force := flagIsTrue fs.publishCmd.values.b
    P := flagIsTrue fs.publishCmd.values.pMaj
    pm := flagIsTrue fs.publishCmd.values.pMin
    pp := flagIsTrue fs.publishCmd.values.pPatch
    J := flagIsTrue fs.publishCmd.values.jMaj
    jm := flagIsTrue fs.publishCmd.values.jMin
    jp := flagIsTrue fs.publishCmd.values.jPatch }

/-- The block `seed publish` of `main`. -/
def mainPublish {W : Type} (env : Env W) (fs : FlagSets) (s : State W) : Exit W :=
  let r := s.call (Call.DockerPublish (publishArgs fs)) (env.DockerPublish (publishArgs fs))
  finish r.1 r.2

/-- The arguments the block `seed pull` passes to `commands.DockerPull`. -/
def pullArgs (fs : FlagSets) : PullArgs :=
  { imageName := fs.pullCmd.values.imgNameFlag
    registry := fs.pullCmd.values.registry
    org := fs.pullCmd.values.org
    user := fs.pullCmd.values.user
    pass := fs.pullCmd.values.password }

/-- The block `seed pull` of `main`. -/
def mainPull {W : Type} (env : Env W) (fs : FlagSets) (s : State W) : Exit W :=
  let r := s.call (Call.DockerPull (pullArgs fs)) (env.DockerPull (pullArgs fs))
  finish r.1 r.2

/-- The body of `main` after `DefineFlags()`: the blocks in source order, each
guarded by `Parsed()` of its flag set and each ending the process; when no
guard holds `main` returns and the process ends with code 0. -/
def dispatch {W : Type} (env : Env W) (goos : String) (fs : FlagSets) (s : State W) : Exit W :=
  if fs.initCmd.parsed then mainInit env fs s
  else if fs.validateCmd.parsed then mainValidate env fs s
  else if fs.searchCmd.parsed then mainSearch env fs s
  else if fs.unpublishCmd.parsed then mainUnpublish env fs s
  else
    let s1 := checkPrivileges env goos s
    if fs.listCmd.parsed then mainList env s1
    else if fs.buildCmd.parsed then mainBuild env fs s1
    else if fs.batchCmd.parsed then mainBatch env fs s1
    else if fs.runCmd.parsed then mainRun env fs s1
    else if fs.publishCmd.parsed then mainPublish env fs s1
    else if fs.pullCmd.parsed then mainPull env fs s1
    else { code := 0, state := s1 }

/-! ## `DefineFlags` and the whole program -/

/-- Modelled from the spec: the subcommand names of the `constants` package,
whose source is missing; they are the names the usage text of `PrintUsage` and
the CLI surface of the specification list. -/
def BatchCommand : String := "batch"

/-- Modelled from the spec: the name of the build subcommand (`constants`). -/
def BuildCommand : String := "build"

/-- Modelled from the spec: the name of the init subcommand (`constants`). -/
def InitCommand : String := "init"

/-- Modelled from the spec: the name of the run subcommand (`constants`). -/
def RunCommand : String := "run"

/-- Modelled from the spec: the name of the search subcommand (`constants`). -/
def SearchCommand : String := "search"

/-- Modelled from the spec: the name of the list subcommand (`constants`). -/
def ListCommand : String := "list"

/-- Modelled from the spec: the name of the publish subcommand (`constants`). -/
def PublishCommand : String := "publish"

/-- Modelled from the spec: the name of the unpublish subcommand (`constants`). -/
def UnpublishCommand : String := "unpublish"

/-- Modelled from the spec: the name of the pull subcommand (`constants`). -/
def PullCommand : String := "pull"

/-- Modelled from the spec: the name of the validate subcommand (`constants`). -/
def ValidateCommand : String := "validate"

/-- Modelled from the spec: the name of the version subcommand (`constants`). -/
def VersionCommand : String := "version"

/-- Modelled from the spec: the name of the spec subcommand (`constants`). -/
def SpecCommand : String := "spec"

/-- The error a `FlagSet.Parse` returns. -/
inductive ParseErr where
  | ErrHelp
  | other (text : String)
  deriving DecidableEq, Repr

/-- What `FlagSet.Parse` does: it either ends the process itself (a set made
with `flag.ExitOnError`, or a usage function that exits), or returns an error
value and leaves the flag variables with the given values. -/
inductive ParseResult (V : Type) where
  | exited (code : Int)
  | returned (err : Option ParseErr) (values : V)

/-- The standard `flag` package applied to each of the flag sets of
`main.go`: from the current values of the flag variables and the arguments
after the subcommand name to the outcome of `Parse`. -/
structure FlagPkg where
  parseBatch : BatchFlags → List String → ParseResult BatchFlags
  parseBuild : BuildFlags → List String → ParseResult BuildFlags
  parseInit : InitFlags → List String → ParseResult InitFlags
  parseRun : RunFlags → List String → ParseResult RunFlags
  parseSearch : SearchFlags → List String → ParseResult SearchFlags
  parseList : Unit → List String → ParseResult Unit
  parsePublish : PublishFlags → List String → ParseResult PublishFlags
  parseUnpublish : UnpublishFlags → List String → ParseResult UnpublishFlags
  parsePull : PullFlags → List String → ParseResult PullFlags
  parseValidate : ValidateFlags → List String → ParseResult ValidateFlags
  parseVersion : Unit → List String → ParseResult Unit
  parseSpec : Unit → List String → ParseResult Unit

/-- Either the process has ended, or control goes on with a value. -/
inductive Flow (W α : Type) where
  | exit (e : Exit W)
  | next (a : α) (s : State W)

/-- Stores the outcome of a `Parse` in its flag set, which is then `Parsed()`
whatever error was returned. -/
def ParseResult.store {V : Type} (r : ParseResult V) (put : FlagSet V → FlagSets) :
    ParseResult FlagSets :=
  match r with
  | ParseResult.exited code => ParseResult.exited code
  | ParseResult.returned err v => ParseResult.returned err (put { parsed := true, values := v })

/-- The call `cmd.Parse(arguments)` on the flag set of `cmd`. -/
def parseCmd (fp : FlagPkg) (cmd : CmdId) (arguments : List String) (fs : FlagSets) :
    ParseResult FlagSets :=
  match cmd with
  | CmdId.batch =>
    (fp.parseBatch fs.batchCmd.values arguments).store (fun x => { fs with batchCmd := x })
  | CmdId.build =>
    (fp.parseBuild fs.buildCmd.values arguments).store (fun x => { fs with buildCmd := x })
  | CmdId.init =>
    (fp.parseInit fs.initCmd.values arguments).store (fun x => { fs with initCmd := x })
  | CmdId.run =>
    (fp.parseRun fs.runCmd.values arguments).store (fun x => { fs with runCmd := x })
  | CmdId.search =>
    (fp.parseSearch fs.searchCmd.values arguments).store (fun x => { fs with searchCmd := x })
  | CmdId.list =>
    (fp.parseList fs.listCmd.values arguments).store (fun x => { fs with listCmd := x })
  | CmdId.publish =>
    (fp.parsePublish fs.publishCmd.values arguments).store (fun x => { fs with publishCmd := x })
  | CmdId.unpublish =>
    (fp.parseUnpublish fs.unpublishCmd.values arguments).store
      (fun x => { fs with unpublishCmd := x })
  | CmdId.pull =>
    (fp.parsePull fs.pullCmd.values arguments).store (fun x => { fs with pullCmd := x })
  | CmdId.validate =>
    (fp.parseValidate fs.validateCmd.values arguments).store
      (fun x => { fs with validateCmd := x })
  | CmdId.version =>
    (fp.parseVersion fs.versionCmd.values arguments).store (fun x => { fs with versionCmd := x })
  | CmdId.spec =>
    (fp.parseSpec fs.specCmd.values arguments).store (fun x => { fs with specCmd := x })

/-- The function `PrintUsage`: the word mark, the usage text, then
`panic(util.Exit 0)`. -/
def PrintUsage {W : Type} (s : State W) : Exit W :=
  let s := PrintASCIIArt s
  let s := PrintUtil "\nUsage:\tseed COMMAND\n\n" s
  let s := PrintUtil "A tool for assisting in creating seed spec compliant algorithms\n\n" s
  let s := PrintUtil "Commands:\n" s
  let s := PrintUtil "  build \tBuilds Seed compliant Docker image\n" s
  let s := PrintUtil "  batch \tExecutes Seed compliant docker image over multiple iterations\n" s
  let s := PrintUtil "  init  \tInitialize new project with example seed.manifest.json file\n" s
  let s := PrintUtil "  list  \tLists all Seed compliant images residing on the local system\n" s
  let s := PrintUtil "  publish\tPublishes Seed compliant images to remote Docker registry\n" s
  let s := PrintUtil "  pull\t\tPulls images from remote Docker registry\n" s
  let s := PrintUtil "  run   \tExecutes Seed compliant Docker image\n" s
  let s := PrintUtil "  search\tAllows for discovery of Seed compliant images hosted within a Docker registry (default is docker.io)\n" s
  let s := PrintUtil "  spec\t\tDisplays the specification for the current Seed version\n" s
  let s := PrintUtil "  unpublish\tRemoves images from remote Docker registry\n" s
  let s := PrintUtil "  validate\tValidates a Seed spec\n" s
  let s := PrintUtil "  version\tPrints the version of Seed spec\n" s
  let s := PrintUtil "\nRun \x27seed COMMAND \x2d\x2dhelp\x27 for more information on a command.\n" s
  { code := 0, state := s }

/-- The function `PrintVersion`; it always ends the process. -/
def PrintVersion {W : Type} (env : Env W) (s : State W) : Exit W :=
  let s := PrintASCIIArt s
  let s := PrintUtil ("Seed CLI v" ++ env.cliVersion ++ "\n") s
  let r := s.call (Call.AssetDir "schema") (env.AssetDir "schema")
  match r.1.2 with
  | some e =>
    { code := 1, state := PrintUtil ("Error getting supported schema versions: " ++ e ++ " \n") r.2 }
  | none =>
    { code := 0
      state := PrintUtil ("Supported Seed schema versions: [" ++ " ".intercalate r.1.1 ++ "]\n") r.2 }

/-- The function `PrintSpec`: runs `man seed-spec` and reports what the
command wrote to its error stream, if anything. -/
def PrintSpec {W : Type} (env : Env W) (s : State W) : GoError × State W :=
  let r := s.call Call.ManSeedSpec env.ManSeedSpec
  if r.1 ≠ "" then
    let s1 := PrintUtil ("ERROR: Error displaying seed spec:\n" ++ r.1 ++ "\n") r.2
    let s2 := PrintUtil "Exiting seed...\n" s1
    (some r.1, s2)
  else (none, r.2)

/-- The usage function of the flag set of `cmd`: the word mark, then
`commands.Print…Usage()`. -/
def cmdUsage {W : Type} (env : Env W) (cmd : CmdId) (s : State W) : Option Int × State W :=
  (PrintASCIIArt s).call (Call.PrintCmdUsage cmd) (env.PrintCmdUsage cmd)

/-- The tail of `DefineFlags` for a selected flag set (`if cmd != nil`): parse
the arguments after the subcommand name; leave with code 0 on `flag.ErrHelp`;
show the usage and leave with code 0 when fewer than `minArgs` arguments were
given. -/
def parseSelected {W : Type} (fp : FlagPkg) (env : Env W) (cmd : CmdId) (minArgs : Nat)
    (osArgs : List String) (fs : FlagSets) (s : State W) : Flow W FlagSets :=
  let s1 := s.log (Call.Parse cmd (osArgs.drop 2))
  match parseCmd fp cmd (osArgs.drop 2) fs with
  | ParseResult.exited code => Flow.exit { code := code, state := s1 }
  | ParseResult.returned err fs1 =>
    if err = some ParseErr.ErrHelp then Flow.exit { code := 0, state := s1 }
    else if osArgs.length < minArgs then
      let r := cmdUsage env cmd s1
      match r.1 with
      | some code => Flow.exit { code := code, state := r.2 }
      | none => Flow.exit { code := 0, state := r.2 }
    else Flow.next fs1 s1

/-- The build case of the switch of `DefineFlags`: with no argument after
`build`, the current directory is added as an argument when
`util.GetSeedFileName(".")` finds a manifest there. -/
def buildOsArgs {W : Type} (env : Env W) (osArgs : List String) (s : State W) :
    List String × State W :=
  if osArgs.length = 2 then
    let r := s.call (Call.GetSeedFileName ".") (env.GetSeedFileName ".")
    if r.1.2 = none ∧ r.1.1 = true then (osArgs ++ ["."], r.2) else (osArgs, r.2)
  else (osArgs, s)

/-- The function `DefineFlags` on the argument list `os.Args`. An empty
`os.Args` makes `os.Args[1]` fail with a run-time panic, which
`util.HandleExit` passes on and the Go run time turns into exit code 2. -/
def DefineFlags {W : Type} (fp : FlagPkg) (env : Env W) (osArgs : List String) (s : State W) :
    Flow W FlagSets :=
  let fs := definedFlagSets
  if osArgs.length = 1 then Flow.exit (PrintUsage s)
  else
    match osArgs with
    | [] => Flow.exit { code := 2, state := s }
    | [_] => Flow.exit (PrintUsage s)
    | _ :: name :: rest =>
      if name = BatchCommand then parseSelected fp env CmdId.batch 2 osArgs fs s
      else if name = BuildCommand then
        let r := buildOsArgs env osArgs s
        parseSelected fp env CmdId.build 3 r.1 fs r.2
      else if name = InitCommand then parseSelected fp env CmdId.init 2 osArgs fs s
      else if name = RunCommand then parseSelected fp env CmdId.run 2 osArgs fs s
      else if name = SearchCommand then parseSelected fp env CmdId.search 2 osArgs fs s
      else if name = ListCommand then parseSelected fp env CmdId.list 2 osArgs fs s
      else if name = PublishCommand then parseSelected fp env CmdId.publish 2 osArgs fs s
      else if name = UnpublishCommand then parseSelected fp env CmdId.unpublish 2 osArgs fs s
      else if name = PullCommand then parseSelected fp env CmdId.pull 3 osArgs fs s
      else if name = ValidateCommand then parseSelected fp env CmdId.validate 2 osArgs fs s
      else if name = VersionCommand then
        let s1 := s.log (Call.Parse CmdId.version rest)
        match parseCmd fp CmdId.version rest fs with
        | ParseResult.exited code => Flow.exit { code := code, state := s1 }
        | ParseResult.returned _ _ => Flow.exit (PrintVersion env s1)
      else if name = SpecCommand then
        let s1 := s.log (Call.Parse CmdId.spec rest)
        match parseCmd fp CmdId.spec rest fs with
        | ParseResult.exited code => Flow.exit { code := code, state := s1 }
        | ParseResult.returned _ fs1 => Flow.next fs1 (PrintSpec env s1).2
      else
        let s1 := PrintUtil (name.quote ++ " is not a valid command.\n") s
        Flow.exit (PrintUsage s1)

/-- The program: `main` of `main.go` started with the argument list `osArgs`
on the operating system `goos`, from the world `w` and an empty trace
(`util.InitPrinter` only selects the stream `util.PrintUtil` writes to). -/
def main {W : Type} (fp : FlagPkg) (env : Env W) (goos : String) (osArgs : List String)
    (w : W) : Exit W :=
  match DefineFlags fp env osArgs { world := w, trace := [] } with
  | Flow.exit e => e
  | Flow.next fs s => dispatch env goos fs s

/-! ## The version publisher

The source of `commands.DockerPublish` is missing. The definitions of this
section follow sections 3 and 4.6 of the specification. -/

/-- Modelled from the spec: a semantic version `major.minor.patch` of
non-negative integers (the data model; the package `commands` that holds it is
missing). -/
structure SemVer where
  major : Nat
  minor : Nat
  patch : Nat
  deriving DecidableEq, Repr

/-- Modelled from the spec: the failures of `Publish` (the package `commands`
is missing). -/
inductive Failure where
  | InvalidBumpSpec
  | VersionConflict
  | BuildFailed
  | PushFailed
  deriving DecidableEq, Repr

/-- Modelled from the spec: applying the bump flags of one axis to a version,
`commands.DockerPublish` being missing. A major bump zeroes minor and patch,
a minor bump zeroes patch, a patch bump only increments patch, no bump leaves
the version unchanged, and two bumps on the same axis are rejected. -/
def applyBump (v : SemVer) (major minor patch : Bool) : Except Failure SemVer :=
  match major, minor, patch with
  | false, false, false => Except.ok v
  | true, false, false => Except.ok { major := v.major + 1, minor := 0, patch := 0 }
  | false, true, false => Except.ok { major := v.major, minor := v.minor + 1, patch := 0 }
  | false, false, true => Except.ok { major := v.major, minor := v.minor, patch := v.patch + 1 }
  | _, _, _ => Except.error Failure.InvalidBumpSpec

/-- Modelled from the spec: the part of the manifest that publishing reads and
rewrites (the package `commands` is missing); the job interface plays no part
in publishing and is left out. -/
structure Manifest where
  name : String
  packageVersion : SemVer
  jobVersion : SemVer
  schemaVersion : String
  deriving DecidableEq, Repr

/-- Modelled from the spec: the bump specification of a publish, one flag per
axis and level (the package `commands` is missing). -/
structure BumpSpec where
  pkgMajor : Bool
  pkgMinor : Bool
  pkgPatch : Bool
  jobMajor : Bool
  jobMinor : Bool
  jobPatch : Bool
  deriving DecidableEq, Repr

/-- Modelled from the spec: step 1 of `Publish`, the new manifest value with
the bump rules applied to each axis (the package `commands` is missing). -/
def bumpManifest (m : Manifest) (b : BumpSpec) : Except Failure Manifest :=
  match applyBump m.packageVersion b.pkgMajor b.pkgMinor b.pkgPatch with
  | Except.error f => Except.error f
  | Except.ok p =>
    match applyBump m.jobVersion b.jobMajor b.jobMinor b.jobPatch with
    | Except.error f => Except.error f
    | Except.ok j => Except.ok { m with packageVersion := p, jobVersion := j }

/-- The text `major.minor.patch` of a version. -/
def SemVer.text (v : SemVer) : String :=
  Itoa v.major ++ "." ++ Itoa v.minor ++ "." ++ Itoa v.patch

/-- Modelled from the spec: the tag of the image built from a manifest,
`name-jobVersion-seed:packageVersion` (section 4.3; the package `commands`
is missing). -/
def imageTag (m : Manifest) : String :=
  m.name ++ "-" ++ m.jobVersion.text ++ "-seed:" ++ m.packageVersion.text

/-- Modelled from the spec: what publishing reads and changes, `commands`
being missing: the manifest document on disk, the tags of the registry with
the image each one points to, and the pushes made so far. -/
structure PublishWorld where
  disk : Manifest
  registry : List (String × Nat)
  pushes : List (String × Nat)
  deriving DecidableEq, Repr

/-- Modelled from the spec: the external capabilities `Publish` consumes,
`commands` being missing: the build of an image from a manifest (`none` is a
failed build) and whether the registry accepts the push of a tag. -/
structure Capabilities where
  build : Manifest → Option Nat
  pushAccepted : String → Bool

/-- Modelled from the spec: the registry capability `tagExists`, `commands`
being missing. -/
def tagExists (registry : List (String × Nat)) (tag : String) : Bool :=
  registry.any (fun e => e.1 == tag)

/-- Modelled from the spec: the registry after an accepted push, `commands`
being missing: the tag points to the pushed image and to nothing else. -/
def pushTag (registry : List (String × Nat)) (tag : String) (image : Nat) :
    List (String × Nat) :=
  (tag, image) :: registry.filter (fun e => e.1 != tag)

/-- The image a tag of the registry points to. -/
def imageOf (registry : List (String × Nat)) (tag : String) : Option Nat :=
  (registry.find? (fun e => e.1 == tag)).map (fun e => e.2)

/-- Modelled from the spec: the result of a successful `Publish`, `commands`
being missing. -/
structure PublishResult where
  tag : String
  image : Nat
  manifest : Manifest
  deriving DecidableEq, Repr

/-- Modelled from the spec: the operation `Publish` of section 4.6, the body of
the missing `commands.DockerPublish`. Step 1 computes the bumped manifest, and
an invalid bump specification is rejected before anything is done; step 2
persists it; step 3 rebuilds the image; step 4 asks the registry for the tag;
step 5 aborts with `VersionConflict` when the tag exists and `force` is false;
step 6 pushes the tag. -/
def Publish (caps : Capabilities) (w : PublishWorld) (bump : BumpSpec) (force : Bool) :
    Except Failure PublishResult × PublishWorld :=
  match bumpManifest w.disk bump with
  | Except.error f => (Except.error f, w)
  | Except.ok m =>
    let w1 := { w with disk := m }
    match caps.build m with
    | none => (Except.error Failure.BuildFailed, w1)
    | some image =>
      let tag := imageTag m
      if tagExists w1.registry tag = true ∧ force = false then
        (Except.error Failure.VersionConflict, w1)
      else
        let w2 := { w1 with pushes := w1.pushes ++ [(tag, image)] }
        if caps.pushAccepted tag = true then
          (Except.ok { tag := tag, image := image, manifest := m },
            { w2 with registry := pushTag w2.registry tag image })
        else (Except.error Failure.PushFailed, w2)

/-- Modelled from the spec: the bump specification that the flag arguments of
`commands.DockerPublish` (missing) select: `P`, `pm`, `pp` are the package
axis and `J`, `jm`, `jp` the job axis. -/
def bumpSpecOf (a : PublishArgs) : BumpSpec :=
  { pkgMajor := a.P, pkgMinor := a.pm, pkgPatch := a.pp
    jobMajor := a.J, jobMinor := a.jm, jobPatch := a.jp }

/-- The name of a failure, the text of the error reported for it. -/
def Failure.text : Failure → String
  | Failure.InvalidBumpSpec => "InvalidBumpSpec"
  | Failure.VersionConflict => "VersionConflict"
  | Failure.BuildFailed => "BuildFailed"
  | Failure.PushFailed => "PushFailed"

/-- Modelled from the spec: `commands.DockerPublish` (missing) as the
dispatcher calls it: `Publish` with the bump specification and the force flag
of the arguments; a failure is returned as the error. -/
def DockerPublish (caps : Capabilities) (a : PublishArgs) (w : PublishWorld) :
    GoError × PublishWorld :=
  match Publish caps w (bumpSpecOf a) a.force with
  | (Except.error f, w1) => (some f.text, w1)
  | (Except.ok _, w1) => (none, w1)

/-! ## Sample capabilities -/

/-- Capabilities over a world without content: every call succeeds with empty
results, and `commands.DockerBuild` names its image `img`. -/
def quietEnv : Env Unit :=
  { SeedInit := fun _ _ w => (none, w)
    Validate := fun _ w => (none, w)
    DockerSearch := fun _ w => (([], none), w)
    DockerUnpublish := fun _ w => (none, w)
    CheckSudo := fun w => ((), w)
    DockerList := fun w => (none, w)
    DockerBuild := fun _ w => (("img", none), w)
    DockerPublish := fun _ w => (none, w)
    BatchRun := fun _ w => (none, w)
    DockerRun := fun _ w => (none, w)
    DockerPull := fun _ w => (none, w)
    GetSeedFileName := fun _ w => ((false, none), w)
    PrintCmdUsage := fun _ w => (some 0, w)
    AssetDir := fun _ w => (([], none), w)
    ManSeedSpec := fun w => ("", w)
    cliVersion := "" }

/-- The flag sets after `seed run` was parsed with the repeat count `n` and
the output directory `d`. -/
def runFlagSets (n : Int) (d : String) : FlagSets :=
  { definedFlagSets with
    runCmd :=
      { parsed := true
        values := { DefineRunFlags.values with repeatVar := n, outdir := d } } }

/-- The initial state over a world `w`: no call made yet. -/
def State.init {W : Type} (w : W) : State W := { world := w, trace := [] }

/-- Whether exactly the flag set of `cmd` is parsed, among the sets that
`main` consults; this is how `DefineFlags` leaves the flag sets when it has
parsed the arguments of `cmd`. -/
def FlagSets.parsedOnly (fs : FlagSets) (cmd : CmdId) : Bool :=
  (fs.batchCmd.parsed == decide (cmd = CmdId.batch)) &&
  (fs.buildCmd.parsed == decide (cmd = CmdId.build)) &&
  (fs.initCmd.parsed == decide (cmd = CmdId.init)) &&
  (fs.listCmd.parsed == decide (cmd = CmdId.list)) &&
  (fs.publishCmd.parsed == decide (cmd = CmdId.publish)) &&
  (fs.unpublishCmd.parsed == decide (cmd = CmdId.unpublish)) &&
  (fs.pullCmd.parsed == decide (cmd = CmdId.pull)) &&
  (fs.runCmd.parsed == decide (cmd = CmdId.run)) &&
  (fs.searchCmd.parsed == decide (cmd = CmdId.search)) &&
  (fs.validateCmd.parsed == decide (cmd = CmdId.validate))

/-- The flag sets after the arguments of `cmd` were parsed and every flag
kept its default value. -/
def parsedDefaults (cmd : CmdId) : FlagSets :=
  match cmd with
  | CmdId.batch => { definedFlagSets with batchCmd := { DefineBatchFlags with parsed := true } }
  | CmdId.build => { definedFlagSets with buildCmd := { DefineBuildFlags with parsed := true } }
  | CmdId.init => { definedFlagSets with initCmd := { DefineInitFlags with parsed := true } }
  | CmdId.run => { definedFlagSets with runCmd := { DefineRunFlags with parsed := true } }
  | CmdId.search => { definedFlagSets with searchCmd := { DefineSearchFlags with parsed := true } }
  | CmdId.list => { definedFlagSets with listCmd := { DefineListFlags with parsed := true } }
  | CmdId.publish =>
    { definedFlagSets with publishCmd := { DefinePublishFlags with parsed := true } }
  | CmdId.unpublish =>
    { definedFlagSets with unpublishCmd := { DefineUnpublishFlags with parsed := true } }
  | CmdId.pull => { definedFlagSets with pullCmd := { DefinePullFlags with parsed := true } }
  | CmdId.validate =>
    { definedFlagSets with validateCmd := { DefineValidateFlags with parsed := true } }
  | CmdId.version => { definedFlagSets with versionCmd := { parsed := true, values := () } }
  | CmdId.spec => { definedFlagSets with specCmd := { parsed := true, values := () } }

/-- Capabilities over a world without content in which every command fails
with the error `boom`. -/
def failingEnv : Env Unit :=
  { quietEnv with
    SeedInit := fun _ _ w => (some "boom", w)
    Validate := fun _ w => (some "boom", w)
    DockerSearch := fun _ w => (([], some "boom"), w)
    DockerUnpublish := fun _ w => (some "boom", w)
    DockerList := fun w => (some "boom", w)
    DockerBuild := fun _ w => (("", some "boom"), w)
    DockerPublish := fun _ w => (some "boom", w)
    BatchRun := fun _ w => (some "boom", w)
    DockerRun := fun _ w => (some "boom", w)
    DockerPull := fun _ w => (some "boom", w) }

/-- The flag sets after `seed build` was parsed with the given value of the
publish flag. -/
def buildFlagSets (publish : Bool) : FlagSets :=
  { definedFlagSets with
    buildCmd :=
      { parsed := true
        values := { DefineBuildFlags.values with publish := publish } } }

/-- Whether two or more of the three bump flags of one axis are set. -/
def twoOrMore (major minor patch : Bool) : Bool :=
  (major && minor) || (major && patch) || (minor && patch)

/-- The capabilities of the dispatcher over the world of the publisher:
`commands.DockerPublish` is the modelled one, the privilege check leaves the
world alone, and the other commands are not used. -/
def publishEnv (caps : Capabilities) : Env PublishWorld :=
  { SeedInit := fun _ _ w => (none, w)
    Validate := fun _ w => (none, w)
    DockerSearch := fun _ w => (([], none), w)
    DockerUnpublish := fun _ w => (none, w)
    CheckSudo := fun w => ((), w)
    DockerList := fun w => (none, w)
    DockerBuild := fun _ w => (("", none), w)
    DockerPublish := DockerPublish caps
    BatchRun := fun _ w => (none, w)
    DockerRun := fun _ w => (none, w)
    DockerPull := fun _ w => (none, w)
    GetSeedFileName := fun _ w => ((false, none), w)
    PrintCmdUsage := fun _ w => (some 0, w)
    AssetDir := fun _ w => (([], none), w)
    ManSeedSpec := fun w => ("", w)
    cliVersion := "" }

/-- The flag sets after `seed publish` was parsed with the given force flag and
bump flags (package major, minor, patch, then job major, minor, patch). -/
def publishFlagSets (force pMaj pMin pPatch jMaj jMin jPatch : Bool) : FlagSets :=
  { definedFlagSets with
    publishCmd :=
      { parsed := true
        values :=
          { DefinePublishFlags.values with
            b := force, pMaj := pMaj, pMin := pMin, pPatch := pPatch,
            jMaj := jMaj, jMin := jMin, jPatch := jPatch } } }

/-- A sample manifest: the job `algo-job` at package and job version 1.0.0. -/
def sampleManifest : Manifest :=
  { name := "algo-job"
    packageVersion := { major := 1, minor := 0, patch := 0 }
    jobVersion := { major := 1, minor := 0, patch := 0 }
    schemaVersion := "1.0.0" }

/-- A sample world: the sample manifest on disk and a registry that already
holds its tag, pointing to image 7. -/
def sampleWorld : PublishWorld :=
  { disk := sampleManifest
    registry := [(imageTag sampleManifest, 7)]
    pushes := [] }

/-- Sample capabilities: every build gives image 8 and every push is
accepted. -/
def sampleCaps : Capabilities :=
  { build := fun _ => some 8
    pushAccepted := fun _ => true }

/-- A `flag` package for command lines without flags: every `Parse` returns
without an error and leaves the flag variables as they were. -/
def plainFlags : FlagPkg :=
  { parseBatch := fun v _ => ParseResult.returned none v
    parseBuild := fun v _ => ParseResult.returned none v
    parseInit := fun v _ => ParseResult.returned none v
    parseRun := fun v _ => ParseResult.returned none v
    parseSearch := fun v _ => ParseResult.returned none v
    parseList := fun v _ => ParseResult.returned none v
    parsePublish := fun v _ => ParseResult.returned none v
    parseUnpublish := fun v _ => ParseResult.returned none v
    parsePull := fun v _ => ParseResult.returned none v
    parseValidate := fun v _ => ParseResult.returned none v
    parseVersion := fun v _ => ParseResult.returned none v
    parseSpec := fun v _ => ParseResult.returned none v }

/-- The name that selects the flag set of `cmd` in the switch of
`DefineFlags`. -/
def cmdName : CmdId → String
  | CmdId.batch => BatchCommand
  | CmdId.build => BuildCommand
  | CmdId.init => InitCommand
  | CmdId.run => RunCommand
  | CmdId.search => SearchCommand
  | CmdId.list => ListCommand
  | CmdId.publish => PublishCommand
  | CmdId.unpublish => UnpublishCommand
  | CmdId.pull => PullCommand
  | CmdId.validate => ValidateCommand
  | CmdId.version => VersionCommand
  | CmdId.spec => SpecCommand

/-- The world in which the loop of the run block makes repetition `i + j`, when
the loop is entered at index `i` in the world `w` and the repetitions
`i, …, i + j - 1` have been made. -/
def worldBefore {W : Type} (env : Env W) (fs : FlagSets) : Nat → Int → W → W
  | 0, _, w => w
  | j + 1, i, w =>
    worldBefore env fs j (i + 1)
      (env.DockerRun (runArgs fs (outputDirRep fs.runCmd.values.outdir i)) w).2

/-- Capabilities over a world that counts the runs made so far: the run made
when the count is `failAt` fails with the error `boom`, every other call
succeeds. -/
def countingEnv (failAt : Nat) : Env Nat :=
  { SeedInit := fun _ _ w => (none, w)
    Validate := fun _ w => (none, w)
    DockerSearch := fun _ w => (([], none), w)
    DockerUnpublish := fun _ w => (none, w)
    CheckSudo := fun w => ((), w)
    DockerList := fun w => (none, w)
    DockerBuild := fun _ w => (("img", none), w)
    DockerPublish := fun _ w => (none, w)
    BatchRun := fun _ w => (none, w)
    DockerRun := fun _ w => (if w = failAt then some "boom" else none, w + 1)
    DockerPull := fun _ w => (none, w)
    GetSeedFileName := fun _ w => ((false, none), w)
    PrintCmdUsage := fun _ w => (some 0, w)
    AssetDir := fun _ w => (([], none), w)
    ManSeedSpec := fun w => ("", w)
    cliVersion := "" }

/-- The arguments of the `commands.DockerBuild` calls of a trace, in order. -/
def dockerBuildCalls : List Call → List BuildArgs
  | [] => []
  | Call.DockerBuild a :: t => a :: dockerBuildCalls t
  | _ :: t => dockerBuildCalls t

/-- Capabilities over a world without content in which
`util.GetSeedFileName` finds a manifest and every command succeeds. -/
def manifestEnv : Env Unit :=
  { quietEnv with GetSeedFileName := fun _ w => ((true, none), w) }

/-- The arguments of the `commands.BatchRun` calls of a trace, in order. -/
def batchRunCalls : List Call → List BatchArgs
  | [] => []
  | Call.BatchRun a :: t => a :: batchRunCalls t
  | _ :: t => batchRunCalls t

/-- The flag sets after `seed run` was parsed with the given texts of the
inputs, json, settings and mounts flags. -/
def runListFlagSets (inputs json settings mounts : String) : FlagSets :=
  { definedFlagSets with
    runCmd :=
      { parsed := true
        values :=
          { DefineRunFlags.values with
            inputs := inputs, json := json, settings := settings, mounts := mounts } } }

/-- The flag sets after `seed batch` was parsed with the given texts of the
settings and mounts flags. -/
def batchListFlagSets (settings mounts : String) : FlagSets :=
  { definedFlagSets with
    batchCmd :=
      { parsed := true
        values := { DefineBatchFlags.values with settings := settings, mounts := mounts } } }

/-! ### Facts about the decimal text -/

theorem digitVal_digitChar (d : Nat) (h : d < 10) : digitVal (digitChar d) = some d := by
  have h10 : ∀ d : Nat, d < 10 → digitVal (digitChar d) = some d := by decide
  exact h10 d h

theorem digitChar_ne_minus (d : Nat) (h : d < 10) : digitChar d ≠ '-' := by
  have h10 : ∀ d : Nat, d < 10 → digitChar d ≠ '-' := by decide
  exact h10 d h

theorem digitChar_ne_plus (d : Nat) (h : d < 10) : digitChar d ≠ '+' := by
  have h10 : ∀ d : Nat, d < 10 → digitChar d ≠ '+' := by decide
  exact h10 d h

theorem parseDigits_append (xs ys : List Char) (acc : Nat) :
    parseDigits (xs ++ ys) acc = (parseDigits xs acc).bind (parseDigits ys) := by
  induction xs generalizing acc with
  | nil => simp [parseDigits]
  | cons c cs ih =>
    simp only [List.cons_append, parseDigits]
    cases digitVal c with
    | none => simp
    | some d => simpa using ih (acc * 10 + d)

theorem parseDigits_decimalDigits (fuel n : Nat) (h : n < fuel) :
    parseDigits (decimalDigits fuel n) 0 = some n := by
  induction fuel generalizing n with
  | zero => omega
  | succ k ih =>
    unfold decimalDigits
    split
    · rename_i hn
      simp [parseDigits, digitVal_digitChar n hn]
    · rename_i hn
      have hk : n / 10 < k := by omega
      rw [parseDigits_append, ih (n / 10) hk]
      have hd : n % 10 < 10 := Nat.mod_lt _ (by decide)
      simp only [Option.some_bind, parseDigits, digitVal_digitChar _ hd]
      congr 1
      omega

theorem decimalDigits_ne_nil (fuel n : Nat) (h : n < fuel) : decimalDigits fuel n ≠ [] := by
  cases fuel with
  | zero => omega
  | succ k =>
    unfold decimalDigits
    split <;> simp

theorem decimalDigits_head (fuel n : Nat) (h : n < fuel) :
    ∃ d cs, d < 10 ∧ decimalDigits fuel n = digitChar d :: cs := by
  induction fuel generalizing n with
  | zero => omega
  | succ k ih =>
    unfold decimalDigits
    split
    · rename_i hn
      exact ⟨n, [], hn, rfl⟩
    · rename_i hn
      obtain ⟨d, cs, hd, hcs⟩ := ih (n / 10) (by omega)
      exact ⟨d, cs ++ [digitChar (n % 10)], hd, by simp [hcs]⟩

/-- Reading back the text of an `int` gives the `int`. -/
theorem Atoi_Itoa (i : Int) (hlo : minInt ≤ i) (hhi : i ≤ maxInt) : Atoi (Itoa i) = Except.ok i := by
  have hparse := parseDigits_decimalDigits (i.natAbs + 1) i.natAbs (Nat.lt_succ_self _)
  by_cases hneg : i < 0
  · have hne := decimalDigits_ne_nil (i.natAbs + 1) i.natAbs (Nat.lt_succ_self _)
    have habs : -((i.natAbs : Nat) : Int) = i := by omega
    simp only [Itoa, hneg, if_true, Atoi]
    have hemp : (decimalDigits (i.natAbs + 1) i.natAbs).isEmpty = false := by
      cases hd : decimalDigits (i.natAbs + 1) i.natAbs with
      | nil => exact absurd hd hne
      | cons a l => rfl
    simp only [hemp, hparse, atoiRange, habs, Bool.false_eq_true, if_false, if_true]
    rw [if_pos ⟨hlo, hhi⟩]
  · obtain ⟨d, cs, hd, hcs⟩ := decimalDigits_head (i.natAbs + 1) i.natAbs (Nat.lt_succ_self _)
    have habs : ((i.natAbs : Nat) : Int) = i := by omega
    have hm := digitChar_ne_minus d hd
    have hp := digitChar_ne_plus d hd
    simp only [Itoa, hneg, if_false]
    unfold Atoi
    rw [hcs] at hparse
    simp only [hcs]
    split
    · rename_i heq
      simp at heq
    · rename_i ds heq
      simp at heq
      exact absurd heq.1 hm
    · rename_i ds heq
      simp at heq
      exact absurd heq.1 hp
    · simp only [hparse, atoiRange, habs, Bool.false_eq_true, if_false]
      rw [if_pos ⟨hlo, hhi⟩]

/-! ### Facts about the dispatcher -/

theorem flagIsTrue_eq (b : Bool) : flagIsTrue b = b := by
  cases b <;> decide

theorem finish_code {W : Type} (err : GoError) (s : State W) :
    (finish err s).code = if err = none then 0 else 1 := by
  cases err <;> simp [finish]

theorem parsedOnly_iff (fs : FlagSets) (cmd : CmdId) :
    fs.parsedOnly cmd = true ↔
      fs.batchCmd.parsed = decide (cmd = CmdId.batch) ∧
      fs.buildCmd.parsed = decide (cmd = CmdId.build) ∧
      fs.initCmd.parsed = decide (cmd = CmdId.init) ∧
      fs.listCmd.parsed = decide (cmd = CmdId.list) ∧
      fs.publishCmd.parsed = decide (cmd = CmdId.publish) ∧
      fs.unpublishCmd.parsed = decide (cmd = CmdId.unpublish) ∧
      fs.pullCmd.parsed = decide (cmd = CmdId.pull) ∧
      fs.runCmd.parsed = decide (cmd = CmdId.run) ∧
      fs.searchCmd.parsed = decide (cmd = CmdId.search) ∧
      fs.validateCmd.parsed = decide (cmd = CmdId.validate) := by
  simp only [FlagSets.parsedOnly, Bool.and_eq_true, beq_iff_eq, and_assoc]

theorem dispatch_validate {W : Type} (env : Env W) (goos : String) (fs : FlagSets) (s : State W)
    (h : fs.parsedOnly CmdId.validate = true) :
    dispatch env goos fs s = mainValidate env fs s := by
  rw [parsedOnly_iff] at h
  obtain ⟨_, _, h3, _, _, _, _, _, _, h10⟩ := h
  simp at h3 h10
  simp [dispatch, h3, h10]

theorem dispatch_unpublish {W : Type} (env : Env W) (goos : String) (fs : FlagSets) (s : State W)
    (h : fs.parsedOnly CmdId.unpublish = true) :
    dispatch env goos fs s = mainUnpublish env fs s := by
  rw [parsedOnly_iff] at h
  obtain ⟨_, _, h3, _, _, h6, _, _, h9, h10⟩ := h
  simp at h3 h6 h9 h10
  simp [dispatch, h3, h6, h9, h10]

theorem dispatch_build {W : Type} (env : Env W) (goos : String) (fs : FlagSets) (s : State W)
    (h : fs.parsedOnly CmdId.build = true) :
    dispatch env goos fs s = mainBuild env fs (checkPrivileges env goos s) := by
  rw [parsedOnly_iff] at h
  obtain ⟨_, h2, h3, h4, _, h6, _, _, h9, h10⟩ := h
  simp at h2 h3 h4 h6 h9 h10
  simp [dispatch, h2, h3, h4, h6, h9, h10]

theorem dispatch_batch {W : Type} (env : Env W) (goos : String) (fs : FlagSets) (s : State W)
    (h : fs.parsedOnly CmdId.batch = true) :
    dispatch env goos fs s = mainBatch env fs (checkPrivileges env goos s) := by
  rw [parsedOnly_iff] at h
  obtain ⟨h1, h2, h3, h4, _, h6, _, _, h9, h10⟩ := h
  simp at h1 h2 h3 h4 h6 h9 h10
  simp [dispatch, h1, h2, h3, h4, h6, h9, h10]

theorem dispatch_run {W : Type} (env : Env W) (goos : String) (fs : FlagSets) (s : State W)
    (h : fs.parsedOnly CmdId.run = true) :
    dispatch env goos fs s = mainRun env fs (checkPrivileges env goos s) := by
  rw [parsedOnly_iff] at h
  obtain ⟨h1, h2, h3, h4, _, h6, _, h8, h9, h10⟩ := h
  simp at h1 h2 h3 h4 h6 h8 h9 h10
  simp [dispatch, h1, h2, h3, h4, h6, h8, h9, h10]

theorem dispatch_publish {W : Type} (env : Env W) (goos : String) (fs : FlagSets) (s : State W)
    (h : fs.parsedOnly CmdId.publish = true) :
    dispatch env goos fs s = mainPublish env fs (checkPrivileges env goos s) := by
  rw [parsedOnly_iff] at h
  obtain ⟨h1, h2, h3, h4, h5, h6, _, h8, h9, h10⟩ := h
  simp at h1 h2 h3 h4 h5 h6 h8 h9 h10
  simp [dispatch, h1, h2, h3, h4, h5, h6, h8, h9, h10]

theorem dispatch_pull {W : Type} (env : Env W) (goos : String) (fs : FlagSets) (s : State W)
    (h : fs.parsedOnly CmdId.pull = true) :
    dispatch env goos fs s = mainPull env fs (checkPrivileges env goos s) := by
  rw [parsedOnly_iff] at h
  obtain ⟨h1, h2, h3, h4, h5, h6, h7, h8, h9, h10⟩ := h
  simp at h1 h2 h3 h4 h5 h6 h7 h8 h9 h10
  simp [dispatch, h1, h2, h3, h4, h5, h6, h7, h8, h9, h10]

/-- When the repeat count is at most 1 the run block makes its single call. -/
theorem mainRun_once {W : Type} (env : Env W) (fs : FlagSets) (s : State W)
    (hlo : minInt ≤ fs.runCmd.values.repeatVar) (h1 : fs.runCmd.values.repeatVar ≤ 1) :
    mainRun env fs s =
      finish (s.call (Call.DockerRun (runArgs fs fs.runCmd.values.outdir))
          (env.DockerRun (runArgs fs fs.runCmd.values.outdir))).1
        (s.call (Call.DockerRun (runArgs fs fs.runCmd.values.outdir))
          (env.DockerRun (runArgs fs fs.runCmd.values.outdir))).2 := by
  have hhi : fs.runCmd.values.repeatVar ≤ maxInt := by
    have : (1 : Int) ≤ maxInt := by decide
    omega
  have hnot : ¬ fs.runCmd.values.repeatVar > 1 := by omega
  simp only [mainRun, Atoi_Itoa _ hlo hhi, hnot, if_false]

/-- Claim C1: for validate, unpublish, build without the publish flag, batch,
run with one repetition, publish and pull, the process exits with code 0 when
the command function returns no error and with code 1 when it returns an
error. The command function is called on the world the dispatcher has reached:
the initial one for validate and unpublish, the one after the privilege check
for the others. -/
theorem exit_code_follows_command_error {W : Type} (env : Env W) (goos : String)
    (fs : FlagSets) (s : State W) :
    (fs.parsedOnly CmdId.validate = true →
      (dispatch env goos fs s).code =
        if (env.Validate (validateArgs fs) s.world).1 = none then 0 else 1) ∧
    (fs.parsedOnly CmdId.unpublish = true →
      (dispatch env goos fs s).code =
        if (env.DockerUnpublish (unpublishArgs fs) s.world).1 = none then 0 else 1) ∧
    (fs.parsedOnly CmdId.build = true → fs.buildCmd.values.publish = false →
      (dispatch env goos fs s).code =
        if (env.DockerBuild (buildArgs fs) (checkPrivileges env goos s).world).1.2 = none
        then 0 else 1) ∧
    (fs.parsedOnly CmdId.batch = true →
      (dispatch env goos fs s).code =
        if (env.BatchRun (batchArgs fs) (checkPrivileges env goos s).world).1 = none
        then 0 else 1) ∧
    (fs.parsedOnly CmdId.run = true →
      minInt ≤ fs.runCmd.values.repeatVar → fs.runCmd.values.repeatVar ≤ 1 →
      (dispatch env goos fs s).code =
        if (env.DockerRun (runArgs fs fs.runCmd.values.outdir)
            (checkPrivileges env goos s).world).1 = none
        then 0 else 1) ∧
    (fs.parsedOnly CmdId.publish = true →
      (dispatch env goos fs s).code =
        if (env.DockerPublish (publishArgs fs) (checkPrivileges env goos s).world).1 = none
        then 0 else 1) ∧
    (fs.parsedOnly CmdId.pull = true →
      (dispatch env goos fs s).code =
        if (env.DockerPull (pullArgs fs) (checkPrivileges env goos s).world).1 = none
        then 0 else 1) := by
  refine ⟨?_, ?_, ?_, ?_, ?_, ?_, ?_⟩
  · intro h
    rw [dispatch_validate env goos fs s h]
    simp [mainValidate, finish_code, State.call]
  · intro h
    rw [dispatch_unpublish env goos fs s h]
    simp [mainUnpublish, finish_code, State.call]
  · intro h hp
    rw [dispatch_build env goos fs s h]
    simp only [mainBuild, hp, flagIsTrue_eq, State.call]
    cases hb : (env.DockerBuild (buildArgs fs) (checkPrivileges env goos s).world).1.2 <;> simp
  · intro h
    rw [dispatch_batch env goos fs s h]
    simp [mainBatch, finish_code, State.call]
  · intro h hlo h1
    rw [dispatch_run env goos fs s h, mainRun_once env fs _ hlo h1]
    simp [finish_code, State.call]
  · intro h
    rw [dispatch_publish env goos fs s h]
    simp [mainPublish, finish_code, State.call]
  · intro h
    rw [dispatch_pull env goos fs s h]
    simp [mainPull, finish_code, State.call]

/-- Witness of C1: with the default flags, each of the seven commands exits
with code 0 when its command function succeeds and with code 1 when it
fails. -/
theorem exit_code_follows_command_error_witness :
    ((dispatch quietEnv "linux" (parsedDefaults CmdId.validate) (State.init ())).code = 0 ∧
      (dispatch failingEnv "linux" (parsedDefaults CmdId.validate) (State.init ())).code = 1) ∧
    ((dispatch quietEnv "linux" (parsedDefaults CmdId.unpublish) (State.init ())).code = 0 ∧
      (dispatch failingEnv "linux" (parsedDefaults CmdId.unpublish) (State.init ())).code = 1) ∧
    ((dispatch quietEnv "windows" (parsedDefaults CmdId.build) (State.init ())).code = 0 ∧
      (dispatch failingEnv "windows" (parsedDefaults CmdId.build) (State.init ())).code = 1) ∧
    ((dispatch quietEnv "linux" (parsedDefaults CmdId.batch) (State.init ())).code = 0 ∧
      (dispatch failingEnv "linux" (parsedDefaults CmdId.batch) (State.init ())).code = 1) ∧
    ((dispatch quietEnv "linux" (parsedDefaults CmdId.run) (State.init ())).code = 0 ∧
      (dispatch failingEnv "linux" (parsedDefaults CmdId.run) (State.init ())).code = 1) ∧
    ((dispatch quietEnv "linux" (parsedDefaults CmdId.publish) (State.init ())).code = 0 ∧
      (dispatch failingEnv "linux" (parsedDefaults CmdId.publish) (State.init ())).code = 1) ∧
    ((dispatch quietEnv "linux" (parsedDefaults CmdId.pull) (State.init ())).code = 0 ∧
      (dispatch failingEnv "linux" (parsedDefaults CmdId.pull) (State.init ())).code = 1) :=
  ⟨⟨(exit_code_follows_command_error quietEnv "linux" (parsedDefaults CmdId.validate)
        (State.init ())).1 (by decide),
      (exit_code_follows_command_error failingEnv "linux" (parsedDefaults CmdId.validate)
        (State.init ())).1 (by decide)⟩,
    ⟨(exit_code_follows_command_error quietEnv "linux" (parsedDefaults CmdId.unpublish)
        (State.init ())).2.1 (by decide),
      (exit_code_follows_command_error failingEnv "linux" (parsedDefaults CmdId.unpublish)
        (State.init ())).2.1 (by decide)⟩,
    ⟨(exit_code_follows_command_error quietEnv "windows" (parsedDefaults CmdId.build)
        (State.init ())).2.2.1 (by decide) (by decide),
      (exit_code_follows_command_error failingEnv "windows" (parsedDefaults CmdId.build)
        (State.init ())).2.2.1 (by decide) (by decide)⟩,
    ⟨(exit_code_follows_command_error quietEnv "linux" (parsedDefaults CmdId.batch)
        (State.init ())).2.2.2.1 (by decide),
      (exit_code_follows_command_error failingEnv "linux" (parsedDefaults CmdId.batch)
        (State.init ())).2.2.2.1 (by decide)⟩,
    ⟨(exit_code_follows_command_error quietEnv "linux" (parsedDefaults CmdId.run)
        (State.init ())).2.2.2.2.1 (by decide) (by decide) (by decide),
      (exit_code_follows_command_error failingEnv "linux" (parsedDefaults CmdId.run)
        (State.init ())).2.2.2.2.1 (by decide) (by decide) (by decide)⟩,
    ⟨(exit_code_follows_command_error quietEnv "linux" (parsedDefaults CmdId.publish)
        (State.init ())).2.2.2.2.2.1 (by decide),
      (exit_code_follows_command_error failingEnv "linux" (parsedDefaults CmdId.publish)
        (State.init ())).2.2.2.2.2.1 (by decide)⟩,
    ⟨(exit_code_follows_command_error quietEnv "linux" (parsedDefaults CmdId.pull)
        (State.init ())).2.2.2.2.2.2 (by decide),
      (exit_code_follows_command_error failingEnv "linux" (parsedDefaults CmdId.pull)
        (State.init ())).2.2.2.2.2.2 (by decide)⟩⟩

/-! ### Facts about the run block -/

theorem dockerRunCalls_append (t u : List Call) :
    dockerRunCalls (t ++ u) = dockerRunCalls t ++ dockerRunCalls u := by
  induction t with
  | nil => rfl
  | cons c t ih => cases c <;> simp [dockerRunCalls, ih]

theorem countDockerRun_eq (t : List Call) : countDockerRun t = (dockerRunCalls t).length := by
  induction t with
  | nil => rfl
  | cons c t ih =>
    simp only [countDockerRun] at ih
    cases c <;> simp [countDockerRun, dockerRunCalls, List.filter_cons, ih]

theorem finish_trace_runs {W : Type} (err : GoError) (s : State W) :
    dockerRunCalls (finish err s).state.trace = dockerRunCalls s.trace := by
  cases err <;> simp [finish, PrintUtil, State.log, dockerRunCalls_append, dockerRunCalls]

theorem checkPrivileges_runs {W : Type} (env : Env W) (goos : String) (s : State W) :
    dockerRunCalls (checkPrivileges env goos s).trace = dockerRunCalls s.trace := by
  unfold checkPrivileges
  split <;> simp [State.call, dockerRunCalls_append, dockerRunCalls]

/-- The calls of the loop, whatever the runs return: the first `m` repetitions
in increasing order, for some `m` up to the number of iterations. -/
theorem runRepetitions_calls {W : Type} (env : Env W) (fs : FlagSets) (k : Nat) (i : Int)
    (s : State W) :
    ∃ m, m ≤ k ∧
      dockerRunCalls (runRepetitions env fs k i s).state.trace =
        dockerRunCalls s.trace ++
          (List.range m).map
            (fun j : Nat => runArgs fs (outputDirRep fs.runCmd.values.outdir (i + (j : Int)))) := by
  induction k generalizing i s with
  | zero => exact ⟨0, le_refl _, by simp [runRepetitions]⟩
  | succ k ih =>
    simp only [runRepetitions]
    split
    · rename_i e he
      refine ⟨1, by omega, ?_⟩
      simp [PrintUtil, State.log, State.call, dockerRunCalls_append, dockerRunCalls,
        List.range_succ]
    · rename_i he
      obtain ⟨m, hm, hcalls⟩ := ih (i + 1)
        (s.call (Call.DockerRun (runArgs fs (outputDirRep fs.runCmd.values.outdir i)))
          (env.DockerRun (runArgs fs (outputDirRep fs.runCmd.values.outdir i)))).2
      refine ⟨m + 1, by omega, ?_⟩
      rw [hcalls]
      simp only [State.call, dockerRunCalls_append, dockerRunCalls, List.append_assoc,
        List.range_succ_eq_map, List.map_cons, List.map_map, List.singleton_append]
      congr 2
      · simp
      · apply List.map_congr_left
        intro j _
        simp only [Function.comp, Nat.succ_eq_add_one, Nat.cast_add, Nat.cast_one]
        congr 2
        omega

/-- The calls of the loop when every run succeeds: all `k` repetitions, and the
process exits with code 0. -/
theorem runRepetitions_success {W : Type} (env : Env W) (fs : FlagSets)
    (hok : ∀ a w, (env.DockerRun a w).1 = none) (k : Nat) (i : Int) (s : State W) :
    (runRepetitions env fs k i s).code = 0 ∧
      dockerRunCalls (runRepetitions env fs k i s).state.trace =
        dockerRunCalls s.trace ++
          (List.range k).map
            (fun j : Nat => runArgs fs (outputDirRep fs.runCmd.values.outdir (i + (j : Int)))) := by
  induction k generalizing i s with
  | zero => simp [runRepetitions]
  | succ k ih =>
    simp only [runRepetitions, State.call, hok]
    obtain ⟨hcode, hcalls⟩ := ih (i + 1)
      { world := (env.DockerRun (runArgs fs (outputDirRep fs.runCmd.values.outdir i)) s.world).2
        trace := s.trace ++ [Call.DockerRun (runArgs fs (outputDirRep fs.runCmd.values.outdir i))] }
    refine ⟨hcode, ?_⟩
    rw [hcalls]
    simp only [dockerRunCalls_append, dockerRunCalls, List.append_assoc,
      List.range_succ_eq_map, List.map_cons, List.map_map, List.singleton_append]
    congr 2
    · simp
    · apply List.map_congr_left
      intro j _
      simp only [Function.comp, Nat.succ_eq_add_one, Nat.cast_add, Nat.cast_one]
      congr 2
      omega

/-- When the repeat count is above 1 the run block is the loop. -/
theorem mainRun_loop {W : Type} (env : Env W) (fs : FlagSets) (s : State W)
    (h1 : 1 < fs.runCmd.values.repeatVar) (hhi : fs.runCmd.values.repeatVar ≤ maxInt) :
    mainRun env fs s = runRepetitions env fs fs.runCmd.values.repeatVar.toNat 0 s := by
  have hlo : minInt ≤ fs.runCmd.values.repeatVar := by
    have : minInt ≤ (1 : Int) := by decide
    omega
  have hgt : fs.runCmd.values.repeatVar > 1 := h1
  simp only [mainRun, Atoi_Itoa _ hlo hhi, hgt, if_true]

theorem string_append_cancel_left (a b c : String) (h : a ++ b = a ++ c) : b = c := by
  have hd := congrArg String.data h
  simp only [String.data_append] at hd
  exact String.ext (List.append_cancel_left hd)

theorem Itoa_injective (i j : Int) (hi : minInt ≤ i ∧ i ≤ maxInt) (hj : minInt ≤ j ∧ j ≤ maxInt)
    (h : Itoa i = Itoa j) : i = j := by
  have hi2 := Atoi_Itoa i hi.1 hi.2
  have hj2 := Atoi_Itoa j hj.1 hj.2
  rw [h, hj2] at hi2
  exact (Except.ok.inj hi2).symm

theorem outputDirRep_nonempty (d : String) (i : Int) (hd : d ≠ "") :
    outputDirRep d i = d ++ "-" ++ Itoa i := by
  simp only [outputDirRep, hd, ne_eq, not_false_eq_true, if_true, sprintfDashD,
    String.append_assoc]

theorem outputDirRep_empty (i : Int) : outputDirRep "" i = "" := by
  simp [outputDirRep]

/-- Counterexample to C2 as stated: with the repeat count 0 and every run
succeeding, `commands.DockerRun` is invoked once, not zero times. -/
theorem repeat_zero_runs_once :
    (runFlagSets 0 "").runCmd.values.repeatVar = 0 ∧
    (dispatch quietEnv "linux" (runFlagSets 0 "") (State.init ())).code = 0 ∧
    countDockerRun (dispatch quietEnv "linux" (runFlagSets 0 "") (State.init ())).state.trace
      = 1 := by
  have h := dispatch_run quietEnv "linux" (runFlagSets 0 "") (State.init ()) (by decide)
  have h1 := mainRun_once quietEnv (runFlagSets 0 "")
    (checkPrivileges quietEnv "linux" (State.init ())) (by decide) (by decide)
  rw [h, h1]
  refine ⟨rfl, ?_, ?_⟩
  · decide
  · decide

/-- Claim C2, amended: for every non-negative repeat count N, when every run
succeeds, `commands.DockerRun` is invoked exactly N times if N is at least 1,
and exactly once if N is 0. -/
theorem run_invoked_repeat_times {W : Type} (env : Env W) (goos : String) (fs : FlagSets)
    (s : State W) (hrun : fs.parsedOnly CmdId.run = true)
    (h0 : 0 ≤ fs.runCmd.values.repeatVar) (hhi : fs.runCmd.values.repeatVar ≤ maxInt)
    (hok : ∀ a w, (env.DockerRun a w).1 = none) :
    countDockerRun (dispatch env goos fs s).state.trace =
      countDockerRun s.trace +
        (if fs.runCmd.values.repeatVar = 0 then 1 else fs.runCmd.values.repeatVar.toNat) := by
  rw [dispatch_run env goos fs s hrun]
  simp only [countDockerRun_eq]
  by_cases h1 : fs.runCmd.values.repeatVar ≤ 1
  · have hlo : minInt ≤ fs.runCmd.values.repeatVar := by
      have : minInt ≤ (0 : Int) := by decide
      omega
    rw [mainRun_once env fs _ hlo h1, finish_trace_runs]
    simp only [State.call, dockerRunCalls_append, dockerRunCalls, List.length_append,
      checkPrivileges_runs, List.length_singleton]
    split
    · rfl
    · have : fs.runCmd.values.repeatVar = 1 := by omega
      rw [this]
      rfl
  · have hgt : 1 < fs.runCmd.values.repeatVar := by omega
    rw [mainRun_loop env fs _ hgt hhi,
      (runRepetitions_success env fs hok _ 0 _).2]
    have hne : ¬ fs.runCmd.values.repeatVar = 0 := by omega
    simp [checkPrivileges_runs, hne]

/-- Witness of C2: three repetitions give three calls. -/
theorem run_invoked_repeat_times_witness :
    countDockerRun (dispatch quietEnv "linux" (runFlagSets 3 "out") (State.init ())).state.trace
      = 3 :=
  run_invoked_repeat_times quietEnv "linux" (runFlagSets 3 "out") (State.init ())
    (by decide) (by decide) (by decide) (fun _ _ => rfl)

/-- Claim C10: for every repeat count N at most 1, zero and negative values
included, the run command invokes `commands.DockerRun` exactly once, and the
output directory of that call is the one given, without a suffix. -/
theorem run_once_when_repeat_at_most_one {W : Type} (env : Env W) (goos : String)
    (fs : FlagSets) (s : State W) (hrun : fs.parsedOnly CmdId.run = true)
    (hlo : minInt ≤ fs.runCmd.values.repeatVar) (h1 : fs.runCmd.values.repeatVar ≤ 1) :
    dockerRunCalls (dispatch env goos fs s).state.trace =
        dockerRunCalls s.trace ++ [runArgs fs fs.runCmd.values.outdir] ∧
      (runArgs fs fs.runCmd.values.outdir).outputDir = fs.runCmd.values.outdir ∧
      countDockerRun (dispatch env goos fs s).state.trace = countDockerRun s.trace + 1 := by
  have hcalls : dockerRunCalls (dispatch env goos fs s).state.trace =
      dockerRunCalls s.trace ++ [runArgs fs fs.runCmd.values.outdir] := by
    rw [dispatch_run env goos fs s hrun, mainRun_once env fs _ hlo h1, finish_trace_runs]
    simp only [State.call, dockerRunCalls_append, dockerRunCalls, checkPrivileges_runs]
  refine ⟨hcalls, rfl, ?_⟩
  rw [countDockerRun_eq, countDockerRun_eq, hcalls]
  simp

/-- Witness of C10: the repeat count -2 with the output directory `out` gives
one call, on `out`. -/
theorem run_once_when_repeat_at_most_one_witness :
    dockerRunCalls (dispatch failingEnv "windows" (runFlagSets (-2) "out")
        (State.init ())).state.trace = [runArgs (runFlagSets (-2) "out") "out"] ∧
      (runArgs (runFlagSets (-2) "out") "out").outputDir = "out" ∧
      countDockerRun (dispatch failingEnv "windows" (runFlagSets (-2) "out")
        (State.init ())).state.trace = 1 :=
  run_once_when_repeat_at_most_one failingEnv "windows" (runFlagSets (-2) "out") (State.init ())
    (by decide) (by decide) (by decide)

theorem suffixed_dirs_of_calls (fs : FlagSets) (m : Nat)
    (hd : fs.runCmd.values.outdir ≠ "") :
    ((List.range m).map
        (fun j : Nat =>
          runArgs fs (outputDirRep fs.runCmd.values.outdir (0 + (j : Int))))).map
        RunArgs.outputDir =
      (List.range m).map (fun j : Nat => fs.runCmd.values.outdir ++ "-" ++ Itoa (j : Int)) := by
  rw [List.map_map]
  apply List.map_congr_left
  intro j _
  simp only [Function.comp, runArgs, zero_add, outputDirRep_nonempty _ _ hd]

/-- Claim C3: for every non-empty output directory d and repeat count N above
1, the repetitions are invoked in increasing order of i, the i-th one on the
output directory d ++ "-" ++ decimal(i); every repetition made has this form
whatever the runs return, all N are made when every run succeeds, and the
directories of two different repetitions below N are different texts. -/
theorem repetitions_get_suffixed_dirs {W : Type} (env : Env W) (goos : String)
    (fs : FlagSets) (s : State W) (hrun : fs.parsedOnly CmdId.run = true)
    (hd : fs.runCmd.values.outdir ≠ "")
    (h1 : 1 < fs.runCmd.values.repeatVar) (hhi : fs.runCmd.values.repeatVar ≤ maxInt) :
    (∃ m, m ≤ fs.runCmd.values.repeatVar.toNat ∧
      (dockerRunCalls (dispatch env goos fs s).state.trace).map RunArgs.outputDir =
        (dockerRunCalls s.trace).map RunArgs.outputDir ++
          (List.range m).map
            (fun i : Nat => fs.runCmd.values.outdir ++ "-" ++ Itoa (i : Int))) ∧
    ((∀ a w, (env.DockerRun a w).1 = none) →
      (dockerRunCalls (dispatch env goos fs s).state.trace).map RunArgs.outputDir =
        (dockerRunCalls s.trace).map RunArgs.outputDir ++
          (List.range fs.runCmd.values.repeatVar.toNat).map
            (fun i : Nat => fs.runCmd.values.outdir ++ "-" ++ Itoa (i : Int))) ∧
    (∀ i j : Nat, (i : Int) < fs.runCmd.values.repeatVar →
      (j : Int) < fs.runCmd.values.repeatVar → i ≠ j →
      fs.runCmd.values.outdir ++ "-" ++ Itoa (i : Int) ≠
        fs.runCmd.values.outdir ++ "-" ++ Itoa (j : Int)) := by
  have hmin : minInt ≤ (0 : Int) := by decide
  refine ⟨?_, ?_, ?_⟩
  · obtain ⟨m, hm, hcalls⟩ := runRepetitions_calls env fs fs.runCmd.values.repeatVar.toNat 0
      (checkPrivileges env goos s)
    refine ⟨m, hm, ?_⟩
    rw [dispatch_run env goos fs s hrun, mainRun_loop env fs _ h1 hhi, hcalls,
      List.map_append, checkPrivileges_runs, suffixed_dirs_of_calls fs m hd]
  · intro hok
    rw [dispatch_run env goos fs s hrun, mainRun_loop env fs _ h1 hhi,
      (runRepetitions_success env fs hok _ 0 _).2,
      List.map_append, checkPrivileges_runs, suffixed_dirs_of_calls fs _ hd]
  · intro i j hi hj hij heq
    rw [String.append_assoc, String.append_assoc] at heq
    have h2 := string_append_cancel_left _ _ _ (string_append_cancel_left _ _ _ heq)
    have h3 := Itoa_injective (i : Int) (j : Int) ⟨by omega, by omega⟩ ⟨by omega, by omega⟩ h2
    exact hij (by exact_mod_cast h3)

/-- Witness of C3: three repetitions on the output directory `out` are made
on `out-0`, `out-1`, `out-2`, and the first two of these differ. -/
theorem repetitions_get_suffixed_dirs_witness :
    (dockerRunCalls (dispatch quietEnv "linux" (runFlagSets 3 "out")
        (State.init ())).state.trace).map RunArgs.outputDir = ["out-0", "out-1", "out-2"] ∧
    "out" ++ "-" ++ Itoa ((0 : Nat) : Int) ≠ "out" ++ "-" ++ Itoa ((1 : Nat) : Int) :=
  ⟨((repetitions_get_suffixed_dirs quietEnv "linux" (runFlagSets 3 "out") (State.init ())
        (by decide) (by decide) (by decide) (by decide)).2.1 (fun _ _ => rfl)).trans
      (by decide),
    (repetitions_get_suffixed_dirs quietEnv "linux" (runFlagSets 3 "out") (State.init ())
        (by decide) (by decide) (by decide) (by decide)).2.2 0 1
      (by decide) (by decide) (by decide)⟩

/-! ### Facts about the build block -/

theorem dockerPublishCalls_append (t u : List Call) :
    dockerPublishCalls (t ++ u) = dockerPublishCalls t ++ dockerPublishCalls u := by
  induction t with
  | nil => rfl
  | cons c t ih => cases c <;> simp [dockerPublishCalls, ih]

theorem checkPrivileges_publishes {W : Type} (env : Env W) (goos : String) (s : State W) :
    dockerPublishCalls (checkPrivileges env goos s).trace = dockerPublishCalls s.trace := by
  unfold checkPrivileges
  split <;> simp [State.call, dockerPublishCalls_append, dockerPublishCalls]

/-- Claim C4: in the build command `commands.DockerPublish` is invoked if and
only if `commands.DockerBuild` returned no error and the publish flag is true;
the call receives the image name that the build returned; and when the build
returns an error the process exits with code 1 without a publish call. -/
theorem build_publishes_iff_built_and_flag {W : Type} (env : Env W) (goos : String)
    (fs : FlagSets) (s : State W) (hbuild : fs.parsedOnly CmdId.build = true) :
    dockerPublishCalls (dispatch env goos fs s).state.trace =
        dockerPublishCalls s.trace ++
          (if (env.DockerBuild (buildArgs fs) (checkPrivileges env goos s).world).1.2 = none ∧
              fs.buildCmd.values.publish = true
            then [buildPublishArgs fs
              (env.DockerBuild (buildArgs fs) (checkPrivileges env goos s).world).1.1]
            else []) ∧
      (buildPublishArgs fs
          (env.DockerBuild (buildArgs fs) (checkPrivileges env goos s).world).1.1).origImg =
        (env.DockerBuild (buildArgs fs) (checkPrivileges env goos s).world).1.1 ∧
      ((env.DockerBuild (buildArgs fs) (checkPrivileges env goos s).world).1.2 ≠ none →
        (dispatch env goos fs s).code = 1 ∧
          dockerPublishCalls (dispatch env goos fs s).state.trace =
            dockerPublishCalls s.trace) := by
  rw [dispatch_build env goos fs s hbuild]
  simp only [mainBuild, flagIsTrue_eq, State.call]
  cases hb : (env.DockerBuild (buildArgs fs) (checkPrivileges env goos s).world).1.2 with
  | some e =>
    simp [PrintUtil, State.log, dockerPublishCalls_append, dockerPublishCalls,
      checkPrivileges_publishes, buildPublishArgs]
  | none =>
    cases hp : fs.buildCmd.values.publish with
    | false =>
      simp [dockerPublishCalls_append, dockerPublishCalls, checkPrivileges_publishes,
        buildPublishArgs]
    | true =>
      simp only [if_true, ne_eq, not_true_eq_false, false_implies, and_true,
        true_and]
      refine ⟨?_, rfl⟩
      split <;>
        simp [PrintUtil, State.log, dockerPublishCalls_append, dockerPublishCalls,
          checkPrivileges_publishes]

/-- Witness of C4: a successful build with the publish flag publishes the
image `img` that the build returned, without the flag nothing is published,
and a failed build exits with code 1 and publishes nothing. -/
theorem build_publishes_iff_built_and_flag_witness :
    dockerPublishCalls (dispatch quietEnv "linux" (buildFlagSets true)
        (State.init ())).state.trace = [buildPublishArgs (buildFlagSets true) "img"] ∧
      dockerPublishCalls (dispatch quietEnv "linux" (buildFlagSets false)
        (State.init ())).state.trace = [] ∧
      ((dispatch failingEnv "linux" (buildFlagSets true) (State.init ())).code = 1 ∧
        dockerPublishCalls (dispatch failingEnv "linux" (buildFlagSets true)
          (State.init ())).state.trace = []) :=
  ⟨(build_publishes_iff_built_and_flag quietEnv "linux" (buildFlagSets true) (State.init ())
      (by decide)).1,
    (build_publishes_iff_built_and_flag quietEnv "linux" (buildFlagSets false) (State.init ())
      (by decide)).1,
    (build_publishes_iff_built_and_flag failingEnv "linux" (buildFlagSets true) (State.init ())
      (by decide)).2.2 (by decide)⟩

/-! ### Facts about the version publisher -/

/-- Claim C5: a major bump yields (major+1, 0, 0), a minor bump
(major, minor+1, 0), a patch bump (major, minor, patch+1), and no bump leaves
the version unchanged; 1.2.3 becomes 2.0.0, 1.3.0, 1.2.4 and 1.2.3. -/
theorem applyBump_standard_rules (v : SemVer) :
    applyBump v true false false =
        Except.ok { major := v.major + 1, minor := 0, patch := 0 } ∧
      applyBump v false true false =
        Except.ok { major := v.major, minor := v.minor + 1, patch := 0 } ∧
      applyBump v false false true =
        Except.ok { major := v.major, minor := v.minor, patch := v.patch + 1 } ∧
      applyBump v false false false = Except.ok v ∧
      applyBump { major := 1, minor := 2, patch := 3 } true false false =
        Except.ok { major := 2, minor := 0, patch := 0 } ∧
      applyBump { major := 1, minor := 2, patch := 3 } false true false =
        Except.ok { major := 1, minor := 3, patch := 0 } ∧
      applyBump { major := 1, minor := 2, patch := 3 } false false true =
        Except.ok { major := 1, minor := 2, patch := 4 } ∧
      applyBump { major := 1, minor := 2, patch := 3 } false false false =
        Except.ok { major := 1, minor := 2, patch := 3 } :=
  ⟨rfl, rfl, rfl, rfl, rfl, rfl, rfl, rfl⟩

theorem applyBump_twoOrMore (v : SemVer) (major minor patch : Bool)
    (h : twoOrMore major minor patch = true) :
    applyBump v major minor patch = Except.error Failure.InvalidBumpSpec := by
  cases major <;> cases minor <;> cases patch <;> simp_all [twoOrMore, applyBump]

theorem applyBump_error (v : SemVer) (major minor patch : Bool) (f : Failure)
    (h : applyBump v major minor patch = Except.error f) : f = Failure.InvalidBumpSpec := by
  cases major <;> cases minor <;> cases patch <;> simp_all [applyBump]

theorem bumpManifest_twoOrMore (m : Manifest) (b : BumpSpec)
    (h : twoOrMore b.pkgMajor b.pkgMinor b.pkgPatch = true ∨
      twoOrMore b.jobMajor b.jobMinor b.jobPatch = true) :
    bumpManifest m b = Except.error Failure.InvalidBumpSpec := by
  unfold bumpManifest
  rcases h with h | h
  · rw [applyBump_twoOrMore _ _ _ _ h]
  · rw [applyBump_twoOrMore m.jobVersion _ _ _ h]
    cases hp : applyBump m.packageVersion b.pkgMajor b.pkgMinor b.pkgPatch with
    | error f => simp [applyBump_error _ _ _ _ f hp]
    | ok p => simp

theorem checkPrivileges_publishEnv (caps : Capabilities) (goos : String)
    (s : State PublishWorld) :
    (checkPrivileges (publishEnv caps) goos s).world = s.world := by
  unfold checkPrivileges
  split <;> simp [State.call, publishEnv]

/-- Claim C6: a publish in which two or more bump flags of the same axis are
set is rejected with `InvalidBumpSpec` and is not carried out: the manifest on
disk, the registry and the pushes are as before. Through the dispatcher, the
command `seed publish` with such flags exits with code 1 and leaves the world
as it found it. -/
theorem publish_rejects_two_bumps_on_one_axis (caps : Capabilities) (w : PublishWorld)
    (bump : BumpSpec) (force : Bool) (goos : String) (fs : FlagSets) (s : State PublishWorld)
    (h : twoOrMore bump.pkgMajor bump.pkgMinor bump.pkgPatch = true ∨
      twoOrMore bump.jobMajor bump.jobMinor bump.jobPatch = true)
    (hpub : fs.parsedOnly CmdId.publish = true)
    (hfs : bumpSpecOf (publishArgs fs) = bump) :
    Publish caps w bump force = (Except.error Failure.InvalidBumpSpec, w) ∧
      (dispatch (publishEnv caps) goos fs s).code = 1 ∧
      (dispatch (publishEnv caps) goos fs s).state.world = s.world := by
  have hP : ∀ w force, Publish caps w bump force = (Except.error Failure.InvalidBumpSpec, w) := by
    intro w force
    simp only [Publish, bumpManifest_twoOrMore _ _ h]
  refine ⟨hP w force, ?_⟩
  rw [dispatch_publish _ goos fs s hpub]
  have hcall : ∀ w, (publishEnv caps).DockerPublish (publishArgs fs) w =
      (some Failure.InvalidBumpSpec.text, w) := by
    intro w
    simp only [publishEnv, DockerPublish, hfs, hP]
  simp [mainPublish, State.call, hcall, finish, PrintUtil, State.log,
    checkPrivileges_publishEnv]

/-- Witness of C6: a package major bump together with a package patch bump. -/
theorem publish_rejects_two_bumps_on_one_axis_witness :
    Publish sampleCaps sampleWorld
        (bumpSpecOf (publishArgs (publishFlagSets false true false true false false false)))
        false = (Except.error Failure.InvalidBumpSpec, sampleWorld) ∧
      (dispatch (publishEnv sampleCaps) "linux"
        (publishFlagSets false true false true false false false)
        (State.init sampleWorld)).code = 1 ∧
      (dispatch (publishEnv sampleCaps) "linux"
        (publishFlagSets false true false true false false false)
        (State.init sampleWorld)).state.world = sampleWorld :=
  publish_rejects_two_bumps_on_one_axis sampleCaps sampleWorld
    (bumpSpecOf (publishArgs (publishFlagSets false true false true false false false)))
    false "linux" (publishFlagSets false true false true false false false)
    (State.init sampleWorld) (by decide) (by decide) rfl

theorem imageOf_pushTag (registry : List (String × Nat)) (tag : String) (image : Nat) :
    imageOf (pushTag registry tag image) tag = some image := by
  simp [imageOf, pushTag]

theorem pushTag_single (registry : List (String × Nat)) (tag : String) (image : Nat) :
    ((pushTag registry tag image).filter (fun e => e.1 == tag)).length = 1 := by
  simp [pushTag, List.filter_cons, List.filter_filter]

/-- Claim C7: when the computed tag already exists in the registry, a publish
with force = false aborts with `VersionConflict`, pushes nothing and leaves the
registry as it was; a publish with force = true pushes the tag, and once the
registry accepts the push the publish succeeds and the tag points to the newly
built image and to nothing else. The tag is computed once the bump
specification is valid and the rebuild has succeeded (steps 1 to 3). -/
theorem publish_deconflicts_existing_tag (caps : Capabilities) (w : PublishWorld)
    (bump : BumpSpec) (m : Manifest) (image : Nat)
    (hbump : bumpManifest w.disk bump = Except.ok m)
    (hbuild : caps.build m = some image)
    (hexists : tagExists w.registry (imageTag m) = true) :
    ((Publish caps w bump false).1 = Except.error Failure.VersionConflict ∧
        (Publish caps w bump false).2.pushes = w.pushes ∧
        (Publish caps w bump false).2.registry = w.registry) ∧
      ((Publish caps w bump true).2.pushes = w.pushes ++ [(imageTag m, image)] ∧
        (caps.pushAccepted (imageTag m) = true →
          (Publish caps w bump true).1 =
              Except.ok { tag := imageTag m, image := image, manifest := m } ∧
            imageOf (Publish caps w bump true).2.registry (imageTag m) = some image ∧
            (((Publish caps w bump true).2.registry).filter
              (fun e => e.1 == imageTag m)).length = 1)) := by
  refine ⟨?_, ?_⟩
  · simp [Publish, hbump, hbuild, hexists]
  · refine ⟨?_, ?_⟩
    · simp only [Publish, hbump, hbuild, hexists]
      by_cases hp : caps.pushAccepted (imageTag m) = true <;> simp [hp]
    · intro hp
      simp only [Publish, hbump, hbuild, hexists, hp]
      simp [imageOf_pushTag, pushTag_single]

/-- Witness of C7: the sample registry already holds the tag of the sample
manifest; without force the publish is a `VersionConflict` and nothing is
pushed, with force the publish succeeds and the tag points to the new
image 8. -/
theorem publish_deconflicts_existing_tag_witness :
    (Publish sampleCaps sampleWorld (bumpSpecOf (publishArgs (parsedDefaults CmdId.publish)))
        false).1 = Except.error Failure.VersionConflict ∧
      (Publish sampleCaps sampleWorld (bumpSpecOf (publishArgs (parsedDefaults CmdId.publish)))
        false).2.pushes = [] ∧
      (Publish sampleCaps sampleWorld (bumpSpecOf (publishArgs (parsedDefaults CmdId.publish)))
        true).1 =
          Except.ok { tag := imageTag sampleManifest, image := 8, manifest := sampleManifest } ∧
      imageOf (Publish sampleCaps sampleWorld
        (bumpSpecOf (publishArgs (parsedDefaults CmdId.publish))) true).2.registry
        (imageTag sampleManifest) = some 8 :=
  ⟨(publish_deconflicts_existing_tag sampleCaps sampleWorld
      (bumpSpecOf (publishArgs (parsedDefaults CmdId.publish))) sampleManifest 8
      rfl rfl (by decide)).1.1,
    (publish_deconflicts_existing_tag sampleCaps sampleWorld
      (bumpSpecOf (publishArgs (parsedDefaults CmdId.publish))) sampleManifest 8
      rfl rfl (by decide)).1.2.1,
    ((publish_deconflicts_existing_tag sampleCaps sampleWorld
      (bumpSpecOf (publishArgs (parsedDefaults CmdId.publish))) sampleManifest 8
      rfl rfl (by decide)).2.2 rfl).1,
    ((publish_deconflicts_existing_tag sampleCaps sampleWorld
      (bumpSpecOf (publishArgs (parsedDefaults CmdId.publish))) sampleManifest 8
      rfl rfl (by decide)).2.2 rfl).2.1⟩

/-! ### Facts about `DefineFlags` and the privilege check -/

/-- Claim C9: started with no command (the argument list holds only the
program name), the program prints the usage text of `PrintUsage` and exits
with code 0; the world is untouched and the trace holds nothing but the word
mark and printed text: no flag set is parsed and no command is run. -/
theorem no_command_prints_usage {W : Type} (fp : FlagPkg) (env : Env W) (goos prog : String)
    (w : W) :
    main fp env goos [prog] w = PrintUsage (State.init w) ∧
      (main fp env goos [prog] w).code = 0 ∧
      (main fp env goos [prog] w).state.world = w ∧
      Call.PrintUtil "\nUsage:\tseed COMMAND\n\n" ∈ (main fp env goos [prog] w).state.trace ∧
      (∀ c ∈ (main fp env goos [prog] w).state.trace,
        c = Call.PrintASCIIArt ∨ ∃ text, c = Call.PrintUtil text) := by
  have hmain : main fp env goos [prog] w = PrintUsage (State.init w) := by
    simp [main, DefineFlags, State.init]
  rw [hmain]
  refine ⟨rfl, rfl, rfl, ?_, ?_⟩
  · simp [PrintUsage, PrintUtil, PrintASCIIArt, State.log, State.init]
  · simp [PrintUsage, PrintUtil, PrintASCIIArt, State.log, State.init]

/-- Counterexample to C8 as stated: on windows the invocation `seed spec`
reaches the privilege check, although spec is none of list, build, batch, run,
publish and pull. -/
theorem spec_command_reaches_privilege_check :
    Call.CheckSudo ∈ (main plainFlags quietEnv "windows" ["seed", SpecCommand] ()).state.trace ∧
      SpecCommand ∉
        [ListCommand, BuildCommand, BatchCommand, RunCommand, PublishCommand, PullCommand] := by
  decide

theorem finish_sudo {W : Type} (err : GoError) (s : State W) :
    Call.CheckSudo ∈ (finish err s).state.trace ↔ Call.CheckSudo ∈ s.trace := by
  cases err <;> simp [finish, PrintUtil, State.log]

theorem foldl_print_sudo {W : Type} (results : List String) (s : State W) :
    Call.CheckSudo ∈ (results.foldl (fun st x => PrintUtil (x ++ "\n") st) s).trace ↔
      Call.CheckSudo ∈ s.trace := by
  induction results generalizing s with
  | nil => simp
  | cons x xs ih =>
    simp only [List.foldl_cons]
    rw [ih]
    simp [PrintUtil, State.log]

theorem mainInit_sudo {W : Type} (env : Env W) (fs : FlagSets) (s : State W) :
    Call.CheckSudo ∈ (mainInit env fs s).state.trace ↔ Call.CheckSudo ∈ s.trace := by
  simp [mainInit, finish_sudo, State.call]

theorem mainValidate_sudo {W : Type} (env : Env W) (fs : FlagSets) (s : State W) :
    Call.CheckSudo ∈ (mainValidate env fs s).state.trace ↔ Call.CheckSudo ∈ s.trace := by
  simp [mainValidate, finish_sudo, State.call]

theorem mainSearch_sudo {W : Type} (env : Env W) (fs : FlagSets) (s : State W) :
    Call.CheckSudo ∈ (mainSearch env fs s).state.trace ↔ Call.CheckSudo ∈ s.trace := by
  simp only [mainSearch, State.call]
  cases h : (env.DockerSearch (searchArgs fs) s.world).1.2 with
  | some e => simp [PrintUtil, State.log]
  | none =>
    simp only []
    split
    · rw [foldl_print_sudo]
      simp [PrintUtil, State.log]
    · simp [PrintUtil, State.log]

theorem mainUnpublish_sudo {W : Type} (env : Env W) (fs : FlagSets) (s : State W) :
    Call.CheckSudo ∈ (mainUnpublish env fs s).state.trace ↔ Call.CheckSudo ∈ s.trace := by
  simp [mainUnpublish, finish_sudo, State.call]

theorem mainList_sudo {W : Type} (env : Env W) (s : State W) :
    Call.CheckSudo ∈ (mainList env s).state.trace ↔ Call.CheckSudo ∈ s.trace := by
  simp [mainList, finish_sudo, State.call]

theorem mainBuild_sudo {W : Type} (env : Env W) (fs : FlagSets) (s : State W) :
    Call.CheckSudo ∈ (mainBuild env fs s).state.trace ↔ Call.CheckSudo ∈ s.trace := by
  simp only [mainBuild, State.call]
  cases h : (env.DockerBuild (buildArgs fs) s.world).1.2 with
  | some e => simp [PrintUtil, State.log]
  | none =>
    simp only []
    split
    · split <;> simp [PrintUtil, State.log]
    · simp

theorem mainBatch_sudo {W : Type} (env : Env W) (fs : FlagSets) (s : State W) :
    Call.CheckSudo ∈ (mainBatch env fs s).state.trace ↔ Call.CheckSudo ∈ s.trace := by
  simp [mainBatch, finish_sudo, State.call]

theorem runRepetitions_sudo {W : Type} (env : Env W) (fs : FlagSets) (k : Nat) (i : Int)
    (s : State W) :
    Call.CheckSudo ∈ (runRepetitions env fs k i s).state.trace ↔ Call.CheckSudo ∈ s.trace := by
  induction k generalizing i s with
  | zero => simp [runRepetitions]
  | succ k ih =>
    simp only [runRepetitions]
    split
    · simp [PrintUtil, State.log, State.call]
    · rw [ih]
      simp [State.call]

theorem mainRun_sudo {W : Type} (env : Env W) (fs : FlagSets) (s : State W) :
    Call.CheckSudo ∈ (mainRun env fs s).state.trace ↔ Call.CheckSudo ∈ s.trace := by
  simp only [mainRun]
  cases h : Atoi (Itoa fs.runCmd.values.repeatVar) with
  | error e => simp [PrintUtil, State.log]
  | ok reps =>
    simp only []
    split
    · exact runRepetitions_sudo env fs _ _ s
    · simp [finish_sudo, State.call]

theorem mainPublish_sudo {W : Type} (env : Env W) (fs : FlagSets) (s : State W) :
    Call.CheckSudo ∈ (mainPublish env fs s).state.trace ↔ Call.CheckSudo ∈ s.trace := by
  simp [mainPublish, finish_sudo, State.call]

theorem mainPull_sudo {W : Type} (env : Env W) (fs : FlagSets) (s : State W) :
    Call.CheckSudo ∈ (mainPull env fs s).state.trace ↔ Call.CheckSudo ∈ s.trace := by
  simp [mainPull, finish_sudo, State.call]

theorem checkPrivileges_sudo {W : Type} (env : Env W) (goos : String) (s : State W) :
    Call.CheckSudo ∈ (checkPrivileges env goos s).trace ↔
      Call.CheckSudo ∈ s.trace ∨ goos = "windows" := by
  unfold checkPrivileges
  split
  · rename_i h
    simp [State.call, h]
  · rename_i h
    simp [h]

/-- The privilege check is made by the dispatcher exactly on windows and when
none of the four blocks before it is selected. -/
theorem dispatch_sudo {W : Type} (env : Env W) (goos : String) (fs : FlagSets) (s : State W) :
    Call.CheckSudo ∈ (dispatch env goos fs s).state.trace ↔
      Call.CheckSudo ∈ s.trace ∨
        (goos = "windows" ∧ fs.initCmd.parsed = false ∧ fs.validateCmd.parsed = false ∧
          fs.searchCmd.parsed = false ∧ fs.unpublishCmd.parsed = false) := by
  unfold dispatch
  by_cases h1 : fs.initCmd.parsed = true
  · simp [h1, mainInit_sudo]
  by_cases h2 : fs.validateCmd.parsed = true
  · simp [h1, h2, mainValidate_sudo]
  by_cases h3 : fs.searchCmd.parsed = true
  · simp [h1, h2, h3, mainSearch_sudo]
  by_cases h4 : fs.unpublishCmd.parsed = true
  · simp [h1, h2, h3, h4, mainUnpublish_sudo]
  simp only [Bool.not_eq_true] at h1 h2 h3 h4
  simp only [h1, h2, h3, h4, Bool.false_eq_true, if_false, and_true]
  split
  · rw [mainList_sudo, checkPrivileges_sudo]
  split
  · rw [mainBuild_sudo, checkPrivileges_sudo]
  split
  · rw [mainBatch_sudo, checkPrivileges_sudo]
  split
  · rw [mainRun_sudo, checkPrivileges_sudo]
  split
  · rw [mainPublish_sudo, checkPrivileges_sudo]
  split
  · rw [mainPull_sudo, checkPrivileges_sudo]
  · exact checkPrivileges_sudo env goos s

theorem store_returned {V : Type} (r : ParseResult V) (put : FlagSet V → FlagSets)
    (err : Option ParseErr) (fs1 : FlagSets)
    (h : r.store put = ParseResult.returned err fs1) :
    ∃ v, fs1 = put { parsed := true, values := v } := by
  cases r with
  | exited code => simp [ParseResult.store] at h
  | returned e v =>
    simp only [ParseResult.store, ParseResult.returned.injEq] at h
    exact ⟨v, h.2.symm⟩

/-- A `Parse` that returns leaves exactly the flag set of its command parsed. -/
theorem parseCmd_parsedOnly (fp : FlagPkg) (cmd : CmdId) (arguments : List String)
    (err : Option ParseErr) (fs1 : FlagSets)
    (h : parseCmd fp cmd arguments definedFlagSets = ParseResult.returned err fs1) :
    fs1.parsedOnly cmd = true := by
  cases cmd <;> simp only [parseCmd] at h <;>
    obtain ⟨v, rfl⟩ := store_returned _ _ _ _ h <;> rfl

theorem PrintUsage_sudo {W : Type} (s : State W) :
    Call.CheckSudo ∈ (PrintUsage s).state.trace ↔ Call.CheckSudo ∈ s.trace := by
  simp [PrintUsage, PrintUtil, PrintASCIIArt, State.log]

theorem PrintVersion_sudo {W : Type} (env : Env W) (s : State W) :
    Call.CheckSudo ∈ (PrintVersion env s).state.trace ↔ Call.CheckSudo ∈ s.trace := by
  simp only [PrintVersion, State.call]
  split <;> simp [PrintUtil, PrintASCIIArt, State.log]

theorem PrintSpec_sudo {W : Type} (env : Env W) (s : State W) :
    Call.CheckSudo ∈ (PrintSpec env s).2.trace ↔ Call.CheckSudo ∈ s.trace := by
  simp only [PrintSpec, State.call]
  split <;> simp [PrintUtil, State.log]

theorem parseSelected_exit {W : Type} (fp : FlagPkg) (env : Env W) (cmd : CmdId) (minArgs : Nat)
    (osArgs : List String) (s : State W) (e : Exit W)
    (h : parseSelected fp env cmd minArgs osArgs definedFlagSets s = Flow.exit e) :
    (Call.CheckSudo ∈ e.state.trace ↔ Call.CheckSudo ∈ s.trace) := by
  simp only [parseSelected] at h
  cases hp : parseCmd fp cmd (List.drop 2 osArgs) definedFlagSets with
  | exited code =>
    simp only [hp, Flow.exit.injEq] at h
    subst h
    simp [State.log]
  | returned err fs1 =>
    simp only [hp] at h
    split at h
    · simp only [Flow.exit.injEq] at h
      subst h
      simp [State.log]
    · split at h
      · split at h <;>
          (simp only [Flow.exit.injEq] at h
           subst h
           simp [cmdUsage, State.call, State.log, PrintASCIIArt])
      · simp at h

theorem parseSelected_next {W : Type} (fp : FlagPkg) (env : Env W) (cmd : CmdId) (minArgs : Nat)
    (osArgs : List String) (s : State W) (fs1 : FlagSets) (s1 : State W)
    (h : parseSelected fp env cmd minArgs osArgs definedFlagSets s = Flow.next fs1 s1) :
    (Call.CheckSudo ∈ s1.trace ↔ Call.CheckSudo ∈ s.trace) ∧ fs1.parsedOnly cmd = true := by
  simp only [parseSelected] at h
  cases hp : parseCmd fp cmd (List.drop 2 osArgs) definedFlagSets with
  | exited code => simp [hp] at h
  | returned err fs2 =>
    simp only [hp] at h
    split at h
    · simp at h
    · split at h
      · split at h <;> simp at h
      · simp only [Flow.next.injEq] at h
        obtain ⟨hfs, hs⟩ := h
        subst hfs hs
        exact ⟨by simp [State.log], parseCmd_parsedOnly fp cmd _ err _ hp⟩

theorem buildOsArgs_sudo {W : Type} (env : Env W) (osArgs : List String) (s : State W) :
    (Call.CheckSudo ∈ (buildOsArgs env osArgs s).2.trace ↔ Call.CheckSudo ∈ s.trace) := by
  simp only [buildOsArgs]
  split
  · split <;> simp [State.call]
  · rfl

/-- When `DefineFlags` ends the process, it has not made the privilege
check. -/
theorem DefineFlags_exit {W : Type} (fp : FlagPkg) (env : Env W) (osArgs : List String)
    (s : State W) (e : Exit W)
    (h : DefineFlags fp env osArgs s = Flow.exit e) :
    (Call.CheckSudo ∈ e.state.trace ↔ Call.CheckSudo ∈ s.trace) := by
  rcases osArgs with _ | ⟨p, _ | ⟨name, rest⟩⟩
  · have hlen : ¬ (0 = 1) := by omega
    simp only [DefineFlags, List.length_nil, hlen, if_false, Flow.exit.injEq] at h
    subst h
    rfl
  · simp only [DefineFlags, List.length_cons, List.length_nil, zero_add, if_true,
      Flow.exit.injEq] at h
    subst h
    exact PrintUsage_sudo s
  · have hlen : ¬ (rest.length + 1 + 1 = 1) := by omega
    simp only [DefineFlags, List.length_cons, hlen, if_false] at h
    by_cases h1 : name = BatchCommand
    · rw [if_pos h1] at h
      exact parseSelected_exit _ _ _ _ _ _ _ h
    rw [if_neg h1] at h
    by_cases h2 : name = BuildCommand
    · rw [if_pos h2] at h
      exact (parseSelected_exit _ _ _ _ _ _ _ h).trans (buildOsArgs_sudo env _ s)
    rw [if_neg h2] at h
    by_cases h3 : name = InitCommand
    · rw [if_pos h3] at h
      exact parseSelected_exit _ _ _ _ _ _ _ h
    rw [if_neg h3] at h
    by_cases h4 : name = RunCommand
    · rw [if_pos h4] at h
      exact parseSelected_exit _ _ _ _ _ _ _ h
    rw [if_neg h4] at h
    by_cases h5 : name = SearchCommand
    · rw [if_pos h5] at h
      exact parseSelected_exit _ _ _ _ _ _ _ h
    rw [if_neg h5] at h
    by_cases h6 : name = ListCommand
    · rw [if_pos h6] at h
      exact parseSelected_exit _ _ _ _ _ _ _ h
    rw [if_neg h6] at h
    by_cases h7 : name = PublishCommand
    · rw [if_pos h7] at h
      exact parseSelected_exit _ _ _ _ _ _ _ h
    rw [if_neg h7] at h
    by_cases h8 : name = UnpublishCommand
    · rw [if_pos h8] at h
      exact parseSelected_exit _ _ _ _ _ _ _ h
    rw [if_neg h8] at h
    by_cases h9 : name = PullCommand
    · rw [if_pos h9] at h
      exact parseSelected_exit _ _ _ _ _ _ _ h
    rw [if_neg h9] at h
    by_cases h10 : name = ValidateCommand
    · rw [if_pos h10] at h
      exact parseSelected_exit _ _ _ _ _ _ _ h
    rw [if_neg h10] at h
    by_cases h11 : name = VersionCommand
    · rw [if_pos h11] at h
      cases hp : parseCmd fp CmdId.version rest definedFlagSets with
      | exited code =>
        simp only [hp, Flow.exit.injEq] at h
        subst h
        simp [State.log]
      | returned err fs2 =>
        simp only [hp, Flow.exit.injEq] at h
        subst h
        rw [PrintVersion_sudo]
        simp [State.log]
    rw [if_neg h11] at h
    by_cases h12 : name = SpecCommand
    · rw [if_pos h12] at h
      cases hp : parseCmd fp CmdId.spec rest definedFlagSets with
      | exited code =>
        simp only [hp, Flow.exit.injEq] at h
        subst h
        simp [State.log]
      | returned err fs2 =>
        simp only [hp] at h
        cases h
    rw [if_neg h12, Flow.exit.injEq] at h
    subst h
    rw [PrintUsage_sudo]
    simp [PrintUtil, State.log]

/-- When `DefineFlags` returns, it has not made the privilege check, the
command named by the first argument is not `version`, and exactly the flag set
of that command is parsed. -/
theorem DefineFlags_next {W : Type} (fp : FlagPkg) (env : Env W) (osArgs : List String)
    (s : State W) (fs1 : FlagSets) (s1 : State W)
    (h : DefineFlags fp env osArgs s = Flow.next fs1 s1) :
    (Call.CheckSudo ∈ s1.trace ↔ Call.CheckSudo ∈ s.trace) ∧
      ∃ cmd, cmd ≠ CmdId.version ∧ osArgs[1]? = some (cmdName cmd) ∧
        fs1.parsedOnly cmd = true := by
  rcases osArgs with _ | ⟨p, _ | ⟨name, rest⟩⟩
  · have hlen : ¬ (0 = 1) := by omega
    simp only [DefineFlags, List.length_nil, hlen, if_false] at h
    cases h
  · simp only [DefineFlags, List.length_cons, List.length_nil, zero_add, if_true] at h
    cases h
  · have hlen : ¬ (rest.length + 1 + 1 = 1) := by omega
    simp only [DefineFlags, List.length_cons, hlen, if_false] at h
    by_cases h1 : name = BatchCommand
    · rw [if_pos h1] at h
      obtain ⟨hs, hp⟩ := parseSelected_next _ _ _ _ _ _ _ _ h
      exact ⟨hs, CmdId.batch, by decide, by simp [h1, cmdName], hp⟩
    rw [if_neg h1] at h
    by_cases h2 : name = BuildCommand
    · rw [if_pos h2] at h
      obtain ⟨hs, hp⟩ := parseSelected_next _ _ _ _ _ _ _ _ h
      exact ⟨hs.trans (buildOsArgs_sudo env _ s), CmdId.build, by decide, by simp [h2, cmdName], hp⟩
    rw [if_neg h2] at h
    by_cases h3 : name = InitCommand
    · rw [if_pos h3] at h
      obtain ⟨hs, hp⟩ := parseSelected_next _ _ _ _ _ _ _ _ h
      exact ⟨hs, CmdId.init, by decide, by simp [h3, cmdName], hp⟩
    rw [if_neg h3] at h
    by_cases h4 : name = RunCommand
    · rw [if_pos h4] at h
      obtain ⟨hs, hp⟩ := parseSelected_next _ _ _ _ _ _ _ _ h
      exact ⟨hs, CmdId.run, by decide, by simp [h4, cmdName], hp⟩
    rw [if_neg h4] at h
    by_cases h5 : name = SearchCommand
    · rw [if_pos h5] at h
      obtain ⟨hs, hp⟩ := parseSelected_next _ _ _ _ _ _ _ _ h
      exact ⟨hs, CmdId.search, by decide, by simp [h5, cmdName], hp⟩
    rw [if_neg h5] at h
    by_cases h6 : name = ListCommand
    · rw [if_pos h6] at h
      obtain ⟨hs, hp⟩ := parseSelected_next _ _ _ _ _ _ _ _ h
      exact ⟨hs, CmdId.list, by decide, by simp [h6, cmdName], hp⟩
    rw [if_neg h6] at h
    by_cases h7 : name = PublishCommand
    · rw [if_pos h7] at h
      obtain ⟨hs, hp⟩ := parseSelected_next _ _ _ _ _ _ _ _ h
      exact ⟨hs, CmdId.publish, by decide, by simp [h7, cmdName], hp⟩
    rw [if_neg h7] at h
    by_cases h8 : name = UnpublishCommand
    · rw [if_pos h8] at h
      obtain ⟨hs, hp⟩ := parseSelected_next _ _ _ _ _ _ _ _ h
      exact ⟨hs, CmdId.unpublish, by decide, by simp [h8, cmdName], hp⟩
    rw [if_neg h8] at h
    by_cases h9 : name = PullCommand
    · rw [if_pos h9] at h
      obtain ⟨hs, hp⟩ := parseSelected_next _ _ _ _ _ _ _ _ h
      exact ⟨hs, CmdId.pull, by decide, by simp [h9, cmdName], hp⟩
    rw [if_neg h9] at h
    by_cases h10 : name = ValidateCommand
    · rw [if_pos h10] at h
      obtain ⟨hs, hp⟩ := parseSelected_next _ _ _ _ _ _ _ _ h
      exact ⟨hs, CmdId.validate, by decide, by simp [h10, cmdName], hp⟩
    rw [if_neg h10] at h
    by_cases h11 : name = VersionCommand
    · rw [if_pos h11] at h
      cases hp : parseCmd fp CmdId.version rest definedFlagSets with
      | exited code =>
        simp only [hp] at h
        cases h
      | returned err fs2 =>
        simp only [hp] at h
        cases h
    rw [if_neg h11] at h
    by_cases h12 : name = SpecCommand
    · rw [if_pos h12] at h
      cases hp : parseCmd fp CmdId.spec rest definedFlagSets with
      | exited code =>
        simp only [hp] at h
        cases h
      | returned err fs2 =>
        simp only [hp, Flow.next.injEq] at h
        obtain ⟨hfs, hs⟩ := h
        subst hfs hs
        refine ⟨?_, CmdId.spec, by decide, by simp [h12, cmdName],
          parseCmd_parsedOnly fp CmdId.spec _ err _ hp⟩
        rw [PrintSpec_sudo]
        simp [State.log]
    rw [if_neg h12] at h
    cases h

theorem dispatch_init {W : Type} (env : Env W) (goos : String) (fs : FlagSets) (s : State W)
    (h : fs.parsedOnly CmdId.init = true) :
    dispatch env goos fs s = mainInit env fs s := by
  rw [parsedOnly_iff] at h
  obtain ⟨_, _, h3, _⟩ := h
  simp at h3
  simp [dispatch, h3]

theorem dispatch_search {W : Type} (env : Env W) (goos : String) (fs : FlagSets) (s : State W)
    (h : fs.parsedOnly CmdId.search = true) :
    dispatch env goos fs s = mainSearch env fs s := by
  rw [parsedOnly_iff] at h
  obtain ⟨_, _, h3, _, _, _, _, _, h9, h10⟩ := h
  simp at h3 h9 h10
  simp [dispatch, h3, h9, h10]

/-- The privilege check in a run of the whole program: it is made only on
windows and only when the first argument names one of list, build, batch,
run, publish, pull and spec. -/
theorem main_sudo {W : Type} (fp : FlagPkg) (env : Env W) (goos : String)
    (osArgs : List String) (w : W)
    (h : Call.CheckSudo ∈ (main fp env goos osArgs w).state.trace) :
    goos = "windows" ∧
      ∃ name ∈ [ListCommand, BuildCommand, BatchCommand, RunCommand, PublishCommand,
          PullCommand, SpecCommand],
        osArgs[1]? = some name := by
  simp only [main] at h
  cases hD : DefineFlags fp env osArgs { world := w, trace := [] } with
  | exit e =>
    simp only [hD] at h
    have := (DefineFlags_exit fp env osArgs _ e hD).mp h
    simp at this
  | next fs s1 =>
    simp only [hD] at h
    obtain ⟨hs, cmd, hcmd, hname, hparsed⟩ := DefineFlags_next fp env osArgs _ fs s1 hD
    rw [dispatch_sudo] at h
    rcases h with h | ⟨hw, hi, hv, hse, hu⟩
    · have := hs.mp h
      simp at this
    · refine ⟨hw, ?_⟩
      rw [parsedOnly_iff] at hparsed
      obtain ⟨_, _, p3, _, _, p6, _, _, p9, p10⟩ := hparsed
      rw [hi] at p3
      rw [hu] at p6
      rw [hse] at p9
      rw [hv] at p10
      cases cmd
      case batch => exact ⟨BatchCommand, by simp, hname⟩
      case build => exact ⟨BuildCommand, by simp, hname⟩
      case init => simp at p3
      case run => exact ⟨RunCommand, by simp, hname⟩
      case search => simp at p9
      case list => exact ⟨ListCommand, by simp, hname⟩
      case publish => exact ⟨PublishCommand, by simp, hname⟩
      case unpublish => simp at p6
      case pull => exact ⟨PullCommand, by simp, hname⟩
      case validate => simp at p10
      case version => exact absurd rfl hcmd
      case spec => exact ⟨SpecCommand, by simp, hname⟩

/-- Claim C8, amended: for the init, validate and search commands the
dispatcher runs the block of the command, which ends the process, and the
program never calls the privilege check `util.CheckSudo`, on every operating
system; the privilege check is only reached, and only on windows, by the
commands handled after it (list, build, batch, run, publish, pull) and by the
spec command, which `DefineFlags` handles and `main` then falls through. -/
theorem privilege_check_only_after_unpublish {W : Type} (fp : FlagPkg) (env : Env W)
    (goos : String) (osArgs : List String) (w : W) (fs : FlagSets) (s : State W) :
    ((fs.parsedOnly CmdId.init = true → dispatch env goos fs s = mainInit env fs s) ∧
      (fs.parsedOnly CmdId.validate = true → dispatch env goos fs s = mainValidate env fs s) ∧
      (fs.parsedOnly CmdId.search = true → dispatch env goos fs s = mainSearch env fs s)) ∧
    (∀ name ∈ [InitCommand, ValidateCommand, SearchCommand], osArgs[1]? = some name →
      Call.CheckSudo ∉ (main fp env goos osArgs w).state.trace) ∧
    (Call.CheckSudo ∈ (main fp env goos osArgs w).state.trace →
      goos = "windows" ∧
        ∃ name ∈ [ListCommand, BuildCommand, BatchCommand, RunCommand, PublishCommand,
            PullCommand, SpecCommand],
          osArgs[1]? = some name) := by
  refine ⟨⟨dispatch_init env goos fs s, dispatch_validate env goos fs s,
    dispatch_search env goos fs s⟩, ?_, main_sudo fp env goos osArgs w⟩
  intro name hname hargs hsudo
  obtain ⟨_, name2, hname2, hargs2⟩ := main_sudo fp env goos osArgs w hsudo
  rw [hargs] at hargs2
  have heq : name = name2 := Option.some.inj hargs2
  subst heq
  revert hname2
  simp only [List.mem_cons, List.mem_singleton, List.not_mem_nil, or_false] at hname
  rcases hname with rfl | rfl | rfl <;> decide

/-- Witness of C8: on windows `seed init` with default flags runs the init
block and makes no privilege check, while `seed run` makes it. -/
theorem privilege_check_only_after_unpublish_witness :
    dispatch quietEnv "windows" (parsedDefaults CmdId.init) (State.init ()) =
        mainInit quietEnv (parsedDefaults CmdId.init) (State.init ()) ∧
      Call.CheckSudo ∉ (main plainFlags quietEnv "windows" ["seed", InitCommand] ()).state.trace ∧
      ("windows" = "windows" ∧
        ∃ name ∈ [ListCommand, BuildCommand, BatchCommand, RunCommand, PublishCommand,
            PullCommand, SpecCommand],
          ["seed", RunCommand][1]? = some name) :=
  ⟨(privilege_check_only_after_unpublish plainFlags quietEnv "windows" ["seed", InitCommand] ()
      (parsedDefaults CmdId.init) (State.init ())).1.1 (by decide),
    (privilege_check_only_after_unpublish plainFlags quietEnv "windows" ["seed", InitCommand] ()
      (parsedDefaults CmdId.init) (State.init ())).2.1 InitCommand (by decide) (by decide),
    (privilege_check_only_after_unpublish plainFlags quietEnv "windows" ["seed", RunCommand] ()
      (parsedDefaults CmdId.run) (State.init ())).2.2 (by decide)⟩

/-! ### The first failing repetition -/

/-- The loop stops at the first repetition whose run returns an error: the
repetitions up to and including it are the calls made, and the process exits
with code 1. -/
theorem runRepetitions_first_error {W : Type} (env : Env W) (fs : FlagSets) (k : Nat) :
    ∀ (n : Nat) (i : Int) (s : State W), k < n →
      (∀ j, j < k →
        (env.DockerRun (runArgs fs (outputDirRep fs.runCmd.values.outdir (i + (j : Int))))
          (worldBefore env fs j i s.world)).1 = none) →
      (env.DockerRun (runArgs fs (outputDirRep fs.runCmd.values.outdir (i + (k : Int))))
          (worldBefore env fs k i s.world)).1 ≠ none →
      (runRepetitions env fs n i s).code = 1 ∧
        dockerRunCalls (runRepetitions env fs n i s).state.trace =
          dockerRunCalls s.trace ++
            (List.range (k + 1)).map
              (fun j : Nat =>
                runArgs fs (outputDirRep fs.runCmd.values.outdir (i + (j : Int)))) := by
  induction k with
  | zero =>
    intro n i s hn _ herr
    obtain ⟨n, rfl⟩ : ∃ n', n = n' + 1 := ⟨n - 1, by omega⟩
    simp only [worldBefore, Nat.cast_zero, add_zero] at herr
    simp only [runRepetitions, State.call]
    cases hr : (env.DockerRun (runArgs fs (outputDirRep fs.runCmd.values.outdir i)) s.world).1 with
    | none => exact absurd hr herr
    | some e =>
      simp [PrintUtil, State.log, dockerRunCalls_append, dockerRunCalls, List.range_succ]
  | succ k ih =>
    intro n i s hn hok herr
    obtain ⟨n, rfl⟩ : ∃ n', n = n' + 1 := ⟨n - 1, by omega⟩
    have h0 := hok 0 (Nat.succ_pos k)
    simp only [worldBefore, Nat.cast_zero, add_zero] at h0
    simp only [runRepetitions, State.call, h0]
    have hshift : ∀ j : Nat, i + 1 + (j : Int) = i + ((j + 1 : Nat) : Int) := by
      intro j
      push_cast
      omega
    obtain ⟨hcode, hcalls⟩ := ih n (i + 1)
      { world := (env.DockerRun (runArgs fs (outputDirRep fs.runCmd.values.outdir i)) s.world).2
        trace := s.trace ++ [Call.DockerRun (runArgs fs (outputDirRep fs.runCmd.values.outdir i))] }
      (by omega)
      (by
        intro j hj
        have := hok (j + 1) (by omega)
        simp only [worldBefore] at this
        rw [hshift]
        exact this)
      (by
        simp only [worldBefore] at herr
        rw [hshift]
        exact herr)
    refine ⟨hcode, ?_⟩
    rw [hcalls]
    simp only [dockerRunCalls_append, dockerRunCalls, List.append_assoc,
      List.range_succ_eq_map (k + 1), List.map_cons, List.map_map, List.singleton_append]
    congr 2
    · simp
    · apply List.map_congr_left
      intro j _
      simp only [Function.comp, Nat.succ_eq_add_one]
      rw [hshift]

/-- Claim C11: in a repeated run with N above 1, if repetition k (counted from
0) is the first whose `commands.DockerRun` returns an error, then exactly the
repetitions 0 to k are invoked, so `commands.DockerRun` is invoked k+1 times
and no repetition after k is made, and the process exits with code 1; this
holds for every output directory, empty (no suffix) or not. -/
theorem repeated_run_fails_fast {W : Type} (env : Env W) (goos : String) (fs : FlagSets)
    (s : State W) (k : Nat) (hrun : fs.parsedOnly CmdId.run = true)
    (h1 : 1 < fs.runCmd.values.repeatVar) (hhi : fs.runCmd.values.repeatVar ≤ maxInt)
    (hk : (k : Int) < fs.runCmd.values.repeatVar)
    (hok : ∀ j, j < k →
      (env.DockerRun (runArgs fs (outputDirRep fs.runCmd.values.outdir (j : Int)))
        (worldBefore env fs j 0 (checkPrivileges env goos s).world)).1 = none)
    (herr :
      (env.DockerRun (runArgs fs (outputDirRep fs.runCmd.values.outdir (k : Int)))
        (worldBefore env fs k 0 (checkPrivileges env goos s).world)).1 ≠ none) :
    countDockerRun (dispatch env goos fs s).state.trace = countDockerRun s.trace + (k + 1) ∧
      dockerRunCalls (dispatch env goos fs s).state.trace =
        dockerRunCalls s.trace ++
          (List.range (k + 1)).map
            (fun j : Nat => runArgs fs (outputDirRep fs.runCmd.values.outdir (j : Int))) ∧
      (dispatch env goos fs s).code = 1 := by
  have hn : k < fs.runCmd.values.repeatVar.toNat := by omega
  obtain ⟨hcode, hcalls⟩ := runRepetitions_first_error env fs k
    fs.runCmd.values.repeatVar.toNat 0 (checkPrivileges env goos s) hn
    (by intro j hj; rw [zero_add]; exact hok j hj)
    (by rw [zero_add]; exact herr)
  simp only [zero_add, checkPrivileges_runs] at hcalls
  rw [dispatch_run env goos fs s hrun, mainRun_loop env fs _ h1 hhi]
  refine ⟨?_, hcalls, hcode⟩
  rw [countDockerRun_eq, countDockerRun_eq, hcalls]
  simp

/-- Witness of C11: three repetitions of which the second (index 1) fails,
once with the output directory `out` and once with none: two calls are made
and the process exits with code 1. -/
theorem repeated_run_fails_fast_witness :
    (countDockerRun (dispatch (countingEnv 1) "linux" (runFlagSets 3 "out")
          (State.init 0)).state.trace = 2 ∧
        (dockerRunCalls (dispatch (countingEnv 1) "linux" (runFlagSets 3 "out")
          (State.init 0)).state.trace).map RunArgs.outputDir = ["out-0", "out-1"] ∧
        (dispatch (countingEnv 1) "linux" (runFlagSets 3 "out") (State.init 0)).code = 1) ∧
      (countDockerRun (dispatch (countingEnv 1) "linux" (runFlagSets 3 "")
          (State.init 0)).state.trace = 2 ∧
        (dockerRunCalls (dispatch (countingEnv 1) "linux" (runFlagSets 3 "")
          (State.init 0)).state.trace).map RunArgs.outputDir = ["", ""] ∧
        (dispatch (countingEnv 1) "linux" (runFlagSets 3 "") (State.init 0)).code = 1) :=
  ⟨⟨(repeated_run_fails_fast (countingEnv 1) "linux" (runFlagSets 3 "out") (State.init 0) 1
        (by decide) (by decide) (by decide) (by decide) (by decide) (by decide)).1,
      (congrArg (List.map RunArgs.outputDir)
        (repeated_run_fails_fast (countingEnv 1) "linux" (runFlagSets 3 "out") (State.init 0) 1
          (by decide) (by decide) (by decide) (by decide) (by decide) (by decide)).2.1).trans
        (by decide),
      (repeated_run_fails_fast (countingEnv 1) "linux" (runFlagSets 3 "out") (State.init 0) 1
        (by decide) (by decide) (by decide) (by decide) (by decide) (by decide)).2.2⟩,
    ⟨(repeated_run_fails_fast (countingEnv 1) "linux" (runFlagSets 3 "") (State.init 0) 1
        (by decide) (by decide) (by decide) (by decide) (by decide) (by decide)).1,
      (congrArg (List.map RunArgs.outputDir)
        (repeated_run_fails_fast (countingEnv 1) "linux" (runFlagSets 3 "") (State.init 0) 1
          (by decide) (by decide) (by decide) (by decide) (by decide) (by decide)).2.1).trans
        (by decide),
      (repeated_run_fails_fast (countingEnv 1) "linux" (runFlagSets 3 "") (State.init 0) 1
        (by decide) (by decide) (by decide) (by decide) (by decide) (by decide)).2.2⟩⟩

/-! ### `seed build` without arguments -/

theorem dockerBuildCalls_append (t u : List Call) :
    dockerBuildCalls (t ++ u) = dockerBuildCalls t ++ dockerBuildCalls u := by
  induction t with
  | nil => rfl
  | cons c t ih => cases c <;> simp [dockerBuildCalls, ih]

theorem checkPrivileges_builds {W : Type} (env : Env W) (goos : String) (s : State W) :
    dockerBuildCalls (checkPrivileges env goos s).trace = dockerBuildCalls s.trace := by
  unfold checkPrivileges
  split <;> simp [State.call, dockerBuildCalls_append, dockerBuildCalls]

/-- The build block calls `commands.DockerBuild` once, whatever follows. -/
theorem mainBuild_builds {W : Type} (env : Env W) (fs : FlagSets) (s : State W) :
    dockerBuildCalls (mainBuild env fs s).state.trace =
      dockerBuildCalls s.trace ++ [buildArgs fs] := by
  simp only [mainBuild, State.call]
  cases h : (env.DockerBuild (buildArgs fs) s.world).1.2 with
  | some e => simp [PrintUtil, State.log, dockerBuildCalls_append, dockerBuildCalls]
  | none =>
    simp only []
    split
    · split <;> simp [PrintUtil, State.log, dockerBuildCalls_append, dockerBuildCalls]
    · simp [dockerBuildCalls_append, dockerBuildCalls]

theorem DefineFlags_build {W : Type} (fp : FlagPkg) (env : Env W) (prog : String)
    (s : State W) :
    DefineFlags fp env [prog, BuildCommand] s =
      parseSelected fp env CmdId.build 3 (buildOsArgs env [prog, BuildCommand] s).1
        definedFlagSets (buildOsArgs env [prog, BuildCommand] s).2 := by
  have hlen : ¬ ((0 : Nat) + 1 + 1 = 1) := by omega
  simp only [DefineFlags, List.length_cons, List.length_nil, hlen, if_false]
  rw [if_neg (by decide : ¬ BuildCommand = BatchCommand), if_pos trivial]

/-- With a manifest in the current directory, `seed build` is the build block
on the default flags, after the manifest lookup, the parse of the added
argument and the privilege check. -/
theorem main_build_with_manifest {W : Type} (fp : FlagPkg) (env : Env W) (goos prog : String)
    (w : W)
    (hp1 : fp.parseBuild DefineBuildFlags.values ["."] =
      ParseResult.returned none DefineBuildFlags.values)
    (hg : (env.GetSeedFileName "." w).1.2 = none ∧ (env.GetSeedFileName "." w).1.1 = true) :
    main fp env goos [prog, BuildCommand] w =
      mainBuild env (parsedDefaults CmdId.build)
        (checkPrivileges env goos
          { world := (env.GetSeedFileName "." w).2
            trace := [Call.GetSeedFileName ".", Call.Parse CmdId.build ["."]] }) := by
  have hlt : ¬ ((0 : Nat) + 1 + 1 + 1 < 3) := by omega
  have hD : DefineFlags fp env [prog, BuildCommand] { world := w, trace := [] } =
      Flow.next (parsedDefaults CmdId.build)
        { world := (env.GetSeedFileName "." w).2
          trace := [Call.GetSeedFileName ".", Call.Parse CmdId.build ["."]] } := by
    have hparse : parseCmd fp CmdId.build ["."] definedFlagSets =
        ParseResult.returned none (parsedDefaults CmdId.build) := by
      have hv : definedFlagSets.buildCmd.values = DefineBuildFlags.values := rfl
      simp only [parseCmd]
      rw [hv, hp1]
      rfl
    rw [DefineFlags_build]
    simp only [buildOsArgs, List.length_cons, List.length_nil, State.call, hg, and_self,
      if_true, parseSelected, List.cons_append, List.nil_append, List.drop, hparse,
      State.log, hlt, if_false]
    rfl
  simp only [main, hD]
  exact dispatch_build env goos _ _ (by decide)

/-- Without a manifest in the current directory, `seed build` shows the build
usage and ends; the exit code is the one the usage function ends the process
with, or 0 when it returns. -/
theorem main_build_without_manifest {W : Type} (fp : FlagPkg) (env : Env W)
    (goos prog : String) (w : W)
    (hp0 : fp.parseBuild DefineBuildFlags.values [] =
      ParseResult.returned none DefineBuildFlags.values)
    (hg : ¬ ((env.GetSeedFileName "." w).1.2 = none ∧ (env.GetSeedFileName "." w).1.1 = true)) :
    (main fp env goos [prog, BuildCommand] w).state.trace =
        [Call.GetSeedFileName ".", Call.Parse CmdId.build [], Call.PrintASCIIArt,
          Call.PrintCmdUsage CmdId.build] ∧
      (main fp env goos [prog, BuildCommand] w).code =
        ((env.PrintCmdUsage CmdId.build (env.GetSeedFileName "." w).2).1).getD 0 := by
  have hlt : (0 : Nat) + 1 + 1 < 3 := by omega
  have hD : DefineFlags fp env [prog, BuildCommand] { world := w, trace := [] } =
      Flow.exit
        { code := ((env.PrintCmdUsage CmdId.build (env.GetSeedFileName "." w).2).1).getD 0
          state :=
            { world := (env.PrintCmdUsage CmdId.build (env.GetSeedFileName "." w).2).2
              trace := [Call.GetSeedFileName ".", Call.Parse CmdId.build [], Call.PrintASCIIArt,
                Call.PrintCmdUsage CmdId.build] } } := by
    have hparse : parseCmd fp CmdId.build [] definedFlagSets =
        ParseResult.returned none (parsedDefaults CmdId.build) := by
      have hv : definedFlagSets.buildCmd.values = DefineBuildFlags.values := rfl
      simp only [parseCmd]
      rw [hv, hp0]
      rfl
    rw [DefineFlags_build]
    simp only [buildOsArgs, List.length_cons, List.length_nil, State.call, hg,
      if_true, if_false, parseSelected, List.nil_append, List.drop, hparse, State.log, hlt,
      cmdUsage, PrintASCIIArt, List.cons_append]
    cases (env.PrintCmdUsage CmdId.build (env.GetSeedFileName "." w).2).1 <;> rfl
  simp only [main, hD, and_self]

/-- Claim C12: for the invocation `seed build` with no further arguments,
`commands.DockerBuild` is invoked if and only if `util.GetSeedFileName(".")`
returns no error and reports that a manifest exists, and then it is invoked
once, with the job directory "."; otherwise the build usage is shown and the
process exits with code 0 without building. The `flag` package is taken to
return without error, leaving the defaults, on the argument lists `[]` and
`["."]`, which hold no flag; and `commands.PrintBuildUsage`, whose source is
missing, is taken to return or to end the process with code 0. -/
theorem build_without_arguments {W : Type} (fp : FlagPkg) (env : Env W) (goos prog : String)
    (w : W)
    (hp1 : fp.parseBuild DefineBuildFlags.values ["."] =
      ParseResult.returned none DefineBuildFlags.values)
    (hp0 : fp.parseBuild DefineBuildFlags.values [] =
      ParseResult.returned none DefineBuildFlags.values)
    (husage : ∀ w1, (env.PrintCmdUsage CmdId.build w1).1 = none ∨
      (env.PrintCmdUsage CmdId.build w1).1 = some 0) :
    (dockerBuildCalls (main fp env goos [prog, BuildCommand] w).state.trace ≠ [] ↔
        ((env.GetSeedFileName "." w).1.2 = none ∧ (env.GetSeedFileName "." w).1.1 = true)) ∧
      (((env.GetSeedFileName "." w).1.2 = none ∧ (env.GetSeedFileName "." w).1.1 = true) →
        dockerBuildCalls (main fp env goos [prog, BuildCommand] w).state.trace =
            [buildArgs (parsedDefaults CmdId.build)] ∧
          (buildArgs (parsedDefaults CmdId.build)).jobDirectory = ".") ∧
      (¬ ((env.GetSeedFileName "." w).1.2 = none ∧ (env.GetSeedFileName "." w).1.1 = true) →
        dockerBuildCalls (main fp env goos [prog, BuildCommand] w).state.trace = [] ∧
          Call.PrintCmdUsage CmdId.build ∈
            (main fp env goos [prog, BuildCommand] w).state.trace ∧
          (main fp env goos [prog, BuildCommand] w).code = 0) := by
  have hyes : ((env.GetSeedFileName "." w).1.2 = none ∧ (env.GetSeedFileName "." w).1.1 = true) →
      dockerBuildCalls (main fp env goos [prog, BuildCommand] w).state.trace =
        [buildArgs (parsedDefaults CmdId.build)] := by
    intro hg
    rw [main_build_with_manifest fp env goos prog w hp1 hg, mainBuild_builds,
      checkPrivileges_builds]
    rfl
  have hno : ¬ ((env.GetSeedFileName "." w).1.2 = none ∧ (env.GetSeedFileName "." w).1.1 = true) →
      dockerBuildCalls (main fp env goos [prog, BuildCommand] w).state.trace = [] ∧
        Call.PrintCmdUsage CmdId.build ∈
          (main fp env goos [prog, BuildCommand] w).state.trace ∧
        (main fp env goos [prog, BuildCommand] w).code = 0 := by
    intro hg
    obtain ⟨htrace, hcode⟩ := main_build_without_manifest fp env goos prog w hp0 hg
    rw [htrace, hcode]
    refine ⟨rfl, by simp, ?_⟩
    rcases husage (env.GetSeedFileName "." w).2 with h | h <;> rw [h] <;> rfl
  refine ⟨⟨?_, ?_⟩, fun hg => ⟨hyes hg, rfl⟩, hno⟩
  · intro hcalls
    by_contra hg
    exact hcalls (hno hg).1
  · intro hg
    rw [hyes hg]
    simp

/-- Witness of C12: with a manifest in the current directory `seed build`
builds once in the directory "."; without one it shows the usage, builds
nothing and exits with code 0. -/
theorem build_without_arguments_witness :
    (dockerBuildCalls (main plainFlags manifestEnv "linux" ["seed", BuildCommand] ()).state.trace =
          [buildArgs (parsedDefaults CmdId.build)] ∧
        (buildArgs (parsedDefaults CmdId.build)).jobDirectory = ".") ∧
      (dockerBuildCalls (main plainFlags quietEnv "linux" ["seed", BuildCommand] ()).state.trace
          = [] ∧
        Call.PrintCmdUsage CmdId.build ∈
          (main plainFlags quietEnv "linux" ["seed", BuildCommand] ()).state.trace ∧
        (main plainFlags quietEnv "linux" ["seed", BuildCommand] ()).code = 0) :=
  ⟨(build_without_arguments plainFlags manifestEnv "linux" "seed" () rfl rfl
      (fun _ => Or.inr rfl)).2.1 (by decide),
    (build_without_arguments plainFlags quietEnv "linux" "seed" () rfl rfl
      (fun _ => Or.inr rfl)).2.2 (by decide)⟩

/-! ### The list arguments of run and batch -/

theorem splitComma_ne_nil (l : List Char) : splitComma l ≠ [] := by
  induction l with
  | nil => simp [splitComma]
  | cons c cs ih =>
    simp only [splitComma]
    split
    · simp
    · split <;> simp

theorem splitComma_length (l : List Char) : (splitComma l).length = l.count ',' + 1 := by
  induction l with
  | nil => simp [splitComma]
  | cons c cs ih =>
    simp only [splitComma]
    by_cases hc : c = ','
    · subst hc
      simp [ih]
    · have hcount : (c :: cs).count ',' = cs.count ',' := by
        rw [List.count_cons]
        simp [hc]
      simp only [hc, if_false, hcount]
      cases hs : splitComma cs with
      | nil => exact absurd hs (splitComma_ne_nil cs)
      | cons piece rest =>
        rw [hs] at ih
        simpa using ih

theorem batchRunCalls_append (t u : List Call) :
    batchRunCalls (t ++ u) = batchRunCalls t ++ batchRunCalls u := by
  induction t with
  | nil => rfl
  | cons c t ih => cases c <;> simp [batchRunCalls, ih]

theorem checkPrivileges_batches {W : Type} (env : Env W) (goos : String) (s : State W) :
    batchRunCalls (checkPrivileges env goos s).trace = batchRunCalls s.trace := by
  unfold checkPrivileges
  split <;> simp [State.call, batchRunCalls_append, batchRunCalls]

theorem mainBatch_batches {W : Type} (env : Env W) (fs : FlagSets) (s : State W) :
    batchRunCalls (mainBatch env fs s).state.trace = batchRunCalls s.trace ++ [batchArgs fs] := by
  simp only [mainBatch, State.call]
  cases (env.BatchRun (batchArgs fs) s.world).1 <;>
    simp [finish, PrintUtil, State.log, batchRunCalls_append, batchRunCalls]

/-- Every call the run block makes has the arguments `runArgs` builds from the
flags, for some output directory. -/
theorem mainRun_calls_shape {W : Type} (env : Env W) (fs : FlagSets) (s : State W) :
    ∃ ds : List String,
      dockerRunCalls (mainRun env fs s).state.trace =
        dockerRunCalls s.trace ++ ds.map (runArgs fs) := by
  simp only [mainRun]
  cases h : Atoi (Itoa fs.runCmd.values.repeatVar) with
  | error e =>
    exact ⟨[], by simp [PrintUtil, State.log, dockerRunCalls_append, dockerRunCalls]⟩
  | ok reps =>
    simp only []
    split
    · obtain ⟨m, _, hcalls⟩ := runRepetitions_calls env fs reps.toNat 0 s
      refine ⟨(List.range m).map
        (fun j : Nat => outputDirRep fs.runCmd.values.outdir (0 + (j : Int))), ?_⟩
      rw [hcalls, List.map_map]
      rfl
    · refine ⟨[fs.runCmd.values.outdir], ?_⟩
      rw [finish_trace_runs]
      simp [State.call, dockerRunCalls_append, dockerRunCalls]

/-- Claim C13: for the run and batch commands, every list (inputs, json,
settings, mounts) passed to `commands.DockerRun` or `commands.BatchRun` is the
comma-split of the text of its flag; such a list is never empty, its length is
one more than the number of commas in the text, and for the empty text (the
flag was not supplied) it is the list holding just the empty string. -/
theorem list_arguments_are_comma_splits {W : Type} (env : Env W) (goos : String)
    (fs : FlagSets) (s : State W) :
    (fs.parsedOnly CmdId.run = true →
      ∃ ds : List String,
        dockerRunCalls (dispatch env goos fs s).state.trace =
          dockerRunCalls s.trace ++ ds.map (runArgs fs)) ∧
    (∀ d : String,
      (runArgs fs d).inputs = Split fs.runCmd.values.inputs ∧
        (runArgs fs d).json = Split fs.runCmd.values.json ∧
        (runArgs fs d).settings = Split fs.runCmd.values.settings ∧
        (runArgs fs d).mounts = Split fs.runCmd.values.mounts) ∧
    (fs.parsedOnly CmdId.batch = true →
      batchRunCalls (dispatch env goos fs s).state.trace =
          batchRunCalls s.trace ++ [batchArgs fs] ∧
        (batchArgs fs).settings = Split fs.batchCmd.values.settings ∧
        (batchArgs fs).mounts = Split fs.batchCmd.values.mounts) ∧
    (∀ t : String, Split t ≠ [] ∧ (Split t).length = t.data.count ',' + 1) ∧
    Split "" = [""] := by
  refine ⟨?_, fun d => ⟨rfl, rfl, rfl, rfl⟩, ?_, ?_, rfl⟩
  · intro hrun
    obtain ⟨ds, hds⟩ := mainRun_calls_shape env fs (checkPrivileges env goos s)
    refine ⟨ds, ?_⟩
    rw [dispatch_run env goos fs s hrun, hds, checkPrivileges_runs]
  · intro hbatch
    rw [dispatch_batch env goos fs s hbatch, mainBatch_batches, checkPrivileges_batches]
    exact ⟨rfl, rfl, rfl⟩
  · intro t
    refine ⟨?_, ?_⟩
    · intro h
      have hlen := congrArg List.length h
      simp only [Split, List.length_map, splitComma_length, List.length_nil] at hlen
      omega
    · simp only [Split, List.length_map, splitComma_length]

/-- Witness of C13: `seed run` with the inputs text `a,b`, no json flag, the
settings text `k=v` and the mounts text `,` passes the lists of two, one, one
and two pieces; `seed batch` with no settings and the mounts text `x,y,z`
passes the lists of one and three pieces. -/
theorem list_arguments_are_comma_splits_witness :
    (∃ ds : List String,
      dockerRunCalls (dispatch quietEnv "linux" (runListFlagSets "a,b" "" "k=v" ",")
          (State.init ())).state.trace =
        dockerRunCalls (State.init ()).trace ++
          ds.map (runArgs (runListFlagSets "a,b" "" "k=v" ","))) ∧
    ((runArgs (runListFlagSets "a,b" "" "k=v" ",") "").inputs = ["a", "b"] ∧
      (runArgs (runListFlagSets "a,b" "" "k=v" ",") "").json = [""] ∧
      (runArgs (runListFlagSets "a,b" "" "k=v" ",") "").settings = ["k=v"] ∧
      (runArgs (runListFlagSets "a,b" "" "k=v" ",") "").mounts = ["", ""]) ∧
    (batchRunCalls (dispatch quietEnv "linux" (batchListFlagSets "" "x,y,z")
          (State.init ())).state.trace =
        batchRunCalls (State.init ()).trace ++ [batchArgs (batchListFlagSets "" "x,y,z")] ∧
      (batchArgs (batchListFlagSets "" "x,y,z")).settings = [""] ∧
      (batchArgs (batchListFlagSets "" "x,y,z")).mounts = ["x", "y", "z"]) :=
  ⟨(list_arguments_are_comma_splits quietEnv "linux" (runListFlagSets "a,b" "" "k=v" ",")
      (State.init ())).1 (by decide),
    (list_arguments_are_comma_splits quietEnv "linux" (runListFlagSets "a,b" "" "k=v" ",")
      (State.init ())).2.1 "",
    (list_arguments_are_comma_splits quietEnv "linux" (batchListFlagSets "" "x,y,z")
      (State.init ())).2.2.1 (by decide)⟩

end Seed
